import Mathlib

/-!
# The e-commerce backend of `backend/main.go`, embedded in Lean

The Go program is a set of echo handlers over one GORM handle (`DB`) on a
SQLite file.  The embedding keeps the handlers of `main.go` one to one and
makes their collaborators explicit:

* `float64` is the type `F64`, a value-level model of IEEE 754 binary64 with
  round-to-nearest-even `add`, `mul`, the conversion `float64(uint)` and the
  comparison `<=`; a product and the sum it enters are rounded one after the
  other (no fused multiply-add);
* `uint` is `Nat`, `int` is `Int`, `time.Time` is `Time` (the zero time is `0`)
  and `gorm.DeletedAt` is `Option Time` (`none` = `NULL`);
* the database is a `Store`: five tables, each the list of its rows in rowid
  order.  A table holds the field values GORM is handed; the way the driver
  encodes them on disk is below the model;
* the GORM calls used by `main.go` (`First`, `Find`, `Preload`, `Where`,
  `Scopes`, `Create`, `Save`, `Delete`, `Transaction`) are functions on tables,
  following GORM's documented behaviour for models that embed `gorm.Model`
  (soft delete, `AUTOINCREMENT` primary key, `CreatedAt`/`UpdatedAt` tracking);
* whatever the environment decides is an explicit input of a handler: the result
  of `c.Bind` (an error text or the JSON keys that were present), the clock
  (`now`), and a storage failure (`fault`, the error text, or `none`);
* request bodies carry the JSON keys of the record's own columns and of the
  embedded `gorm.Model`, and a product body also the `category` object, which
  `Create` and `Save` persist as GORM saves a belongs-to association; the
  `products` array of a category stays at its Go zero value in a bound request
  and is filled only by `Preload`.
-/

namespace Backend

/-! ## `float64` -/

/-- A binary64 value.  `fin neg m e` is `(-1)^neg * m * 2^e`; the operations
below produce the canonical form `m < 2^53`, `-1074 ≤ e ≤ 971`, with
`2^52 ≤ m` unless `e = -1074`. -/
inductive F64 where
  | nan
  | inf (neg : Bool)
  | fin (neg : Bool) (m : Nat) (e : Int)
  deriving DecidableEq, Repr

namespace F64

/-- Helper of `bitLen`: fuel-bounded count of binary digits. -/
def bitLenAux : Nat → Nat → Nat
  | 0, _ => 0
  | fuel + 1, m => if m = 0 then 0 else bitLenAux fuel (m / 2) + 1

/-- Number of binary digits of `m`. -/
def bitLen (m : Nat) : Nat := bitLenAux m m

/-- Round the exact value `(-1)^neg * m * 2^e` to binary64, ties to even,
overflowing to an infinity. -/
def round (neg : Bool) (m : Nat) (e : Int) : F64 :=
  if m = 0 then fin neg 0 (-1074)
  else
    let e1 : Int := max (e + (bitLen m : Int) - 53) (-1074)
    let sh : Nat := (e1 - e).toNat
    let q : Nat := if e1 ≤ e then m * 2 ^ (e - e1).toNat else m / 2 ^ sh
    let r : Nat := if e1 ≤ e then 0 else m % 2 ^ sh
    let half : Nat := 2 ^ (sh - 1)
    let q1 : Nat := if half < r ∨ (r = half ∧ e < e1 ∧ q % 2 = 1) then q + 1 else q
    let q2 : Nat := if q1 = 2 ^ 53 then 2 ^ 52 else q1
    let e2 : Int := if q1 = 2 ^ 53 then e1 + 1 else e1
    if 971 < e2 then inf neg else fin neg q2 e2

/-- The conversion `float64(n)` of an unsigned integer. -/
def ofNat (n : Nat) : F64 := round false n 0

/-- The Go zero value of `float64`, `+0`. -/
def zero : F64 := fin false 0 (-1074)

/-- The integer `(-1)^neg * m`. -/
def signed (neg : Bool) (m : Nat) : Int := if neg then -(m : Int) else (m : Int)

/-- Binary64 addition. -/
def add : F64 → F64 → F64
  | nan, _ => nan
  | _, nan => nan
  | inf a, inf b => if a = b then inf a else nan
  | inf a, fin _ _ _ => inf a
  | fin _ _ _, inf b => inf b
  | fin s1 m1 e1, fin s2 m2 e2 =>
    if m1 = 0 ∧ m2 = 0 then fin (s1 && s2) 0 (-1074)
    else if m1 = 0 then round s2 m2 e2
    else if m2 = 0 then round s1 m1 e1
    else
      let e : Int := min e1 e2
      let c : Int := signed s1 (m1 * 2 ^ (e1 - e).toNat) + signed s2 (m2 * 2 ^ (e2 - e).toNat)
      if c = 0 then fin false 0 (-1074) else round (decide (c < 0)) c.natAbs e

/-- Binary64 multiplication. -/
def mul : F64 → F64 → F64
  | nan, _ => nan
  | _, nan => nan
  | inf a, inf b => inf (xor a b)
  | inf a, fin s m _ => if m = 0 then nan else inf (xor a s)
  | fin s m _, inf b => if m = 0 then nan else inf (xor s b)
  | fin s1 m1 e1, fin s2 m2 e2 => round (xor s1 s2) (m1 * m2) (e1 + e2)

/-- The comparison `a <= b` of binary64 (false as soon as one side is NaN). -/
def le : F64 → F64 → Bool
  | nan, _ => false
  | _, nan => false
  | inf a, inf b => a || !b
  | inf a, fin _ _ _ => a
  | fin _ _ _, inf b => !b
  | fin s1 m1 e1, fin s2 m2 e2 =>
    if m1 = 0 ∧ m2 = 0 then true
    else if m1 = 0 then !s2
    else if m2 = 0 then s1
    else
      let e : Int := min e1 e2
      decide (signed s1 (m1 * 2 ^ (e1 - e).toNat) ≤ signed s2 (m2 * 2 ^ (e2 - e).toNat))

instance : Add F64 := ⟨add⟩

instance : Mul F64 := ⟨mul⟩

end F64

/-! ## `strconv` -/

/-- The two errors of `strconv`: `ErrSyntax` and `ErrRange`. -/
inductive NumError where
  | syntaxErr
  | rangeErr
  deriving DecidableEq, Repr

/-- Value of a decimal digit byte, `none` for any other character. -/
def digitVal (c : Char) : Option Nat :=
  if '0' ≤ c ∧ c ≤ '9' then some (c.toNat - '0'.toNat) else none

/-- The largest `uint64`. -/
def maxUint64 : Nat := 2 ^ 64 - 1

/-- The digit loop of `strconv.ParseUint(s, 10, 64)`: stops with `ErrSyntax` at
the first non-digit and with `ErrRange` (value `maxUint64`) at the first
overflow. -/
def parseUintLoop : List Char → Nat → Nat × Option NumError
  | [], n => (n, none)
  | c :: cs, n =>
    match digitVal c with
    | none => (0, some NumError.syntaxErr)
    | some d =>
      if maxUint64 / 10 + 1 ≤ n then (maxUint64, some NumError.rangeErr)
      else if maxUint64 < n * 10 + d then (maxUint64, some NumError.rangeErr)
      else parseUintLoop cs (n * 10 + d)

/-- The pair `(value, err)` returned by `strconv.ParseUint(s, 10, 64)`. -/
def ParseUintRaw (s : String) : Nat × Option NumError :=
  if s = "" then (0, some NumError.syntaxErr) else parseUintLoop s.toList 0

/-- The value of `strconv.ParseUint(s, 10, 64)` when its `err == nil`. -/
def ParseUint (s : String) : Option Nat :=
  match ParseUintRaw s with
  | (n, none) => some n
  | (_, some _) => none

/-- The value of `strconv.ParseInt(s, 10, 0)` on digits `cs` after the sign. -/
def parseIntBody (isNeg : Bool) (cs : List Char) : Int :=
  match ParseUintRaw (String.mk cs) with
  | (_, some NumError.syntaxErr) => 0
  | (un, _) =>
    if !isNeg && decide (2 ^ 63 ≤ un) then 2 ^ 63 - 1
    else if isNeg && decide (2 ^ 63 < un) then -(2 ^ 63)
    else if isNeg then -(un : Int) else (un : Int)

/-- The value `strconv.Atoi(s)` returns, whatever its error (the handlers drop
the error: `id, _ := strconv.Atoi(...)`): `0` on a syntax error, the clamped
value on a range error. -/
def Atoi (s : String) : Int :=
  match s.toList with
  | [] => 0
  | '+' :: cs => parseIntBody false cs
  | '-' :: cs => parseIntBody true cs
  | cs => parseIntBody false cs

/-! ## Data model (`main.go`, lines 20–56) -/

/-- A `time.Time`; `0` is the zero time. -/
abbrev Time := Nat

/-- The embedded `gorm.Model`. -/
structure Model where
  ID : Nat
  CreatedAt : Time
  UpdatedAt : Time
  DeletedAt : Option Time
  deriving DecidableEq, Repr

/-- The Go zero value of `gorm.Model`. -/
def Model.zero : Model := ⟨0, 0, 0, none⟩

/-- The columns of table `categories`. -/
structure CategoryRow extends Model where
  Name : String
  deriving DecidableEq, Repr

/-- The columns of table `products`. -/
structure ProductRow extends Model where
  Name : String
  Price : F64
  CategoryID : Nat
  deriving DecidableEq, Repr

/-- Go struct `Product`: its columns and the `Category` association (whose own
`Products` slice is never filled by this program). -/
structure Product extends ProductRow where
  Category : CategoryRow
  deriving DecidableEq, Repr

/-- Go struct `Category`: its columns and the `Products` association (whose
elements keep a zero `Category`). -/
structure Category extends CategoryRow where
  Products : List ProductRow
  deriving DecidableEq, Repr

/-- Go struct `Cart`. -/
structure Cart extends Model where
  UserID : Nat
  CartValue : F64
  deriving DecidableEq, Repr

/-- Go struct `PaymentItem`. -/
structure PaymentItem extends Model where
  PaymentID : Nat
  ProductID : Nat
  Name : String
  Price : F64
  Qty : Nat
  deriving DecidableEq, Repr

/-- The columns of table `payments`. -/
structure PaymentRow extends Model where
  CustomerName : String
  CustomerEmail : String
  Total : F64
  deriving DecidableEq, Repr

/-- Go struct `Payment`: its columns and the `Items` association. -/
structure Payment extends PaymentRow where
  Items : List PaymentItem
  deriving DecidableEq, Repr

/-- The database behind `DB`: the five tables of `AutoMigrate`. -/
structure Store where
  categories : List CategoryRow
  products : List ProductRow
  carts : List Cart
  payments : List PaymentRow
  paymentItems : List PaymentItem
  deriving DecidableEq, Repr

/-- The database right after `initDB` on a fresh file. -/
def Store.empty : Store := ⟨[], [], [], [], []⟩

/-! ## GORM on a table -/

/-- A model that embeds `gorm.Model`, stored in table `table`: `model` reads
the embedded record and `setModel` replaces it, leaving the other fields. -/
class Row (α : Type) where
  table : String
  model : α → Model
  setModel : Model → α → α
  model_setModel : ∀ m r, model (setModel m r) = m

instance : Row CategoryRow :=
  ⟨"categories", fun r => r.toModel, fun m r => { r with toModel := m }, fun _ _ => rfl⟩

instance : Row ProductRow :=
  ⟨"products", fun r => r.toModel, fun m r => { r with toModel := m }, fun _ _ => rfl⟩

instance : Row Cart :=
  ⟨"carts", fun r => r.toModel, fun m r => { r with toModel := m }, fun _ _ => rfl⟩

instance : Row PaymentRow :=
  ⟨"payments", fun r => r.toModel, fun m r => { r with toModel := m }, fun _ _ => rfl⟩

instance : Row PaymentItem :=
  ⟨"payment_items", fun r => r.toModel, fun m r => { r with toModel := m }, fun _ _ => rfl⟩

section Gorm

variable {α : Type} [Row α]

/-- Primary key of a row. -/
def rowID (r : α) : Nat := (Row.model r).ID

/-- The soft-delete scope `deleted_at IS NULL` GORM adds to every query and
update of a model with a `gorm.DeletedAt` field. -/
def live (r : α) : Bool := (Row.model r).DeletedAt.isNone

/-- Whether some row, soft-deleted or not, has primary key `id`. -/
def hasID (tbl : List α) (id : Nat) : Bool := tbl.any (fun r => decide (rowID r = id))

/-- The key `AUTOINCREMENT` assigns next: one more than the largest key of the
table (rows are never removed, so that is the largest key ever used). -/
def nextID (tbl : List α) : Nat := (tbl.map rowID).foldr max 0 + 1

/-- Put a new row at its place in rowid order. -/
def insertRow (r : α) : List α → List α
  | [] => [r]
  | x :: xs => if rowID r < rowID x then r :: x :: xs else x :: insertRow r xs

/-- The call `db.First(&v, id)`: the non-deleted row with primary key `id`, or
an error (`record not found`, or the storage failure `fault`). -/
def dbFirst (tbl : List α) (id : Int) (fault : Option String) : Except String α :=
  match fault with
  | some e => Except.error e
  | none =>
    match tbl.find? (fun r => live r && decide ((rowID r : Int) = id)) with
    | some r => Except.ok r
    | none => Except.error "record not found"

/-- The rows a `SELECT` with the `Where` conditions `conds` returns: the
non-deleted rows satisfying all of them, in rowid order. -/
def selectRows (tbl : List α) (conds : List (α → Bool)) : List α :=
  tbl.filter (fun r => live r && conds.all (fun c => c r))

/-- A query under construction (`*gorm.DB` between `Model`/`Preload` and
`Find`): the `Where` conditions accumulated so far. -/
structure Query (α : Type) where
  conds : List (α → Bool)

/-- The call `db.Where(cond)`. -/
def Query.Where (db : Query α) (cond : α → Bool) : Query α := ⟨db.conds ++ [cond]⟩

/-- The call `db.Scopes(f)`. -/
def Query.Scopes (db : Query α) (f : Query α → Query α) : Query α := f db

/-- The call `db.Find(&vs)`: the selected rows, or the storage failure. -/
def Query.Find (db : Query α) (tbl : List α) (fault : Option String) : Except String (List α) :=
  match fault with
  | some e => Except.error e
  | none => Except.ok (selectRows tbl db.conds)

/-- The call `db.Create(&v)` for one row: a zero `CreatedAt`/`UpdatedAt` is set
to `now`, a zero primary key is assigned by `AUTOINCREMENT`, a non-zero one is
inserted as given and fails on a primary-key conflict.  Returns the table and
the value as GORM leaves it in `v`. -/
def dbCreate (tbl : List α) (v : α) (now : Time) (fault : Option String) :
    Except String (List α × α) :=
  match fault with
  | some e => Except.error e
  | none =>
    let m := Row.model v
    let stamped : Model :=
      { m with CreatedAt := if m.CreatedAt = 0 then now else m.CreatedAt,
               UpdatedAt := if m.UpdatedAt = 0 then now else m.UpdatedAt }
    if m.ID = 0 then
      let v1 := Row.setModel { stamped with ID := nextID tbl } v
      Except.ok (insertRow v1 tbl, v1)
    else if hasID tbl m.ID then
      Except.error ("UNIQUE constraint failed: " ++ Row.table α ++ ".id")
    else
      let v1 := Row.setModel stamped v
      Except.ok (insertRow v1 tbl, v1)

/-- The statement `INSERT .. ON CONFLICT DO NOTHING` by which GORM saves the
value of a belongs-to association before its owner: a zero `CreatedAt` or
`UpdatedAt` is set to `now`, a zero primary key is assigned by `AUTOINCREMENT`,
a non-zero one is inserted as given unless a row has it already.  Returns the
table and the value as GORM leaves it. -/
def dbCreateDoNothing (tbl : List α) (v : α) (now : Time) : List α × α :=
  let m := Row.model v
  let stamped : Model :=
    { m with CreatedAt := if m.CreatedAt = 0 then now else m.CreatedAt,
             UpdatedAt := if m.UpdatedAt = 0 then now else m.UpdatedAt }
  if m.ID = 0 then
    let v1 := Row.setModel { stamped with ID := nextID tbl } v
    (insertRow v1 tbl, v1)
  else if hasID tbl m.ID then (tbl, Row.setModel stamped v)
  else (insertRow (Row.setModel stamped v) tbl, Row.setModel stamped v)

/-- The call `db.Save(&v)`: with a zero primary key it is `Create`; otherwise
`UPDATE` of every column (`UpdatedAt` set to `now`) of the non-deleted row with
that key and, when no row was affected, `INSERT .. ON CONFLICT (id) DO UPDATE`
of every column but the key and `created_at`. -/
def dbSave (tbl : List α) (v : α) (now : Time) (fault : Option String) :
    Except String (List α × α) :=
  if rowID v = 0 then dbCreate tbl v now fault
  else
    match fault with
    | some e => Except.error e
    | none =>
      let v1 := Row.setModel { Row.model v with UpdatedAt := now } v
      if tbl.any (fun r => decide (rowID r = rowID v) && live r) then
        Except.ok (tbl.map (fun r => if rowID r = rowID v ∧ live r = true then v1 else r), v1)
      else if hasID tbl (rowID v) then
        Except.ok (tbl.map (fun r =>
          if rowID r = rowID v then
            Row.setModel { Row.model v1 with CreatedAt := (Row.model r).CreatedAt } v1
          else r), v1)
      else
        let v2 := Row.setModel
          { Row.model v1 with
            CreatedAt := if (Row.model v).CreatedAt = 0 then now else (Row.model v).CreatedAt } v1
        Except.ok (insertRow v2 tbl, v2)

/-- The call `db.Delete(&v)` on a model with `gorm.DeletedAt`: a soft delete,
`UPDATE .. SET deleted_at = now WHERE id = v.ID AND deleted_at IS NULL`.  With a
zero primary key GORM has no condition to add and refuses the statement. -/
def dbDelete (tbl : List α) (v : α) (now : Time) (fault : Option String) :
    Except String (List α) :=
  match fault with
  | some e => Except.error e
  | none =>
    if rowID v = 0 then Except.error "WHERE conditions required"
    else
      Except.ok (tbl.map (fun r =>
        if rowID r = rowID v ∧ live r = true then
          Row.setModel { Row.model r with DeletedAt := some now } r
        else r))

/-- The rows of one multi-row `INSERT`, created in order. -/
def dbCreateBatch (tbl : List α) (vs : List α) (now : Time) : Except String (List α × List α) :=
  match vs with
  | [] => Except.ok (tbl, [])
  | v :: rest =>
    match dbCreate tbl v now none with
    | Except.error e => Except.error e
    | Except.ok (tbl1, v1) =>
      match dbCreateBatch tbl1 rest now with
      | Except.error e => Except.error e
      | Except.ok (tbl2, rest1) => Except.ok (tbl2, v1 :: rest1)

end Gorm

/-- The call `db.Transaction(f)`: `f` runs its statements on the store and
returns the store they left together with its result; when `f` or the commit
fails, every statement of `f` is rolled back. -/
def dbTransaction {β : Type} (s : Store) (f : Store → Store × Except String β)
    (commitFault : Option String) : Store × Except String β :=
  match f s with
  | (s1, Except.ok b) =>
    match commitFault with
    | some e => (s, Except.error e)
    | none => (s1, Except.ok b)
  | (_, Except.error e) => (s, Except.error e)

/-- The Go zero value of `Category` (as columns). -/
def CategoryRow.zero : CategoryRow := { toModel := Model.zero, Name := "" }

/-- The Go zero value of `Product` (as columns). -/
def ProductRow.zero : ProductRow :=
  { toModel := Model.zero, Name := "", Price := F64.zero, CategoryID := 0 }

/-- The Go zero value of `Cart`. -/
def Cart.zero : Cart := { toModel := Model.zero, UserID := 0, CartValue := F64.zero }

/-- A `Product` value whose `Category` was not loaded. -/
def ProductRow.bare (p : ProductRow) : Product := { toProductRow := p, Category := CategoryRow.zero }

/-- A `Category` value whose `Products` were not loaded. -/
def CategoryRow.bare (c : CategoryRow) : Category := { toCategoryRow := c, Products := [] }

/-- The clause `Preload("Category")` for one product: the non-deleted category
its non-zero `category_id` references, else the zero value. -/
def preloadCategory (s : Store) (p : ProductRow) : Product :=
  { toProductRow := p,
    Category :=
      if p.CategoryID = 0 then CategoryRow.zero
      else (s.categories.find? (fun c => live c && decide (c.ID = p.CategoryID))).getD
        CategoryRow.zero }

/-- The clause `Preload("Products")` for one category: the non-deleted products
whose `category_id` is its non-zero key. -/
def preloadProducts (s : Store) (c : CategoryRow) : Category :=
  { toCategoryRow := c,
    Products :=
      if c.ID = 0 then []
      else selectRows s.products [fun p => decide (p.CategoryID = c.ID)] }

/-- The Go zero value of `Product`. -/
def Product.zero : Product := ProductRow.zero.bare

/-- What GORM does with the `Category` of a product before it writes the
product (`Create` and `Save` alike): nothing when the field is the zero value;
otherwise the category is inserted unless a row has its key, and the product's
`CategoryID` is set to the category's key. -/
def saveBelongsTo (s : Store) (p : Product) (now : Time) : Store × Product :=
  if p.Category = CategoryRow.zero then (s, p)
  else
    let r := dbCreateDoNothing s.categories p.Category now
    ({ s with categories := r.1 }, { p with CategoryID := r.2.ID, Category := r.2 })

/-- The call `DB.Create(&product)` on a `Product`: its category association,
then the product row; on an error nothing is written. -/
def dbCreateProduct (s : Store) (p : Product) (now : Time) (fault : Option String) :
    Except String (Store × Product) :=
  match fault with
  | some e => Except.error e
  | none =>
    let r := saveBelongsTo s p now
    match dbCreate r.1.products r.2.toProductRow now none with
    | Except.error e => Except.error e
    | Except.ok (tbl, row) =>
      Except.ok ({ r.1 with products := tbl }, { toProductRow := row, Category := r.2.Category })

/-- The call `DB.Save(&product)` on a `Product`: its category association,
then the product row; on an error nothing is written. -/
def dbSaveProduct (s : Store) (p : Product) (now : Time) (fault : Option String) :
    Except String (Store × Product) :=
  match fault with
  | some e => Except.error e
  | none =>
    let r := saveBelongsTo s p now
    match dbSave r.1.products r.2.toProductRow now none with
    | Except.error e => Except.error e
    | Except.ok (tbl, row) =>
      Except.ok ({ r.1 with products := tbl }, { toProductRow := row, Category := r.2.Category })

/-! ## HTTP -/

/-- The value handed to `c.JSON` / `c.NoContent`. -/
inductive Body where
  | products (v : List Product)
  | product (v : Product)
  | carts (v : List Cart)
  | cart (v : Cart)
  | categories (v : List Category)
  | category (v : Category)
  | accepted (message : String) (payment : Payment)
  | error (text : String)
  | message (text : String)
  | noContent
  deriving DecidableEq, Repr

/-- What a handler answers: the status code and the body. -/
structure Response where
  status : Nat
  body : Body
  deriving DecidableEq, Repr

/-- Constant `ProductNotFoundStr`. -/
def ProductNotFoundStr : String := "Product not found"

/-- Status `http.StatusOK`. -/
def StatusOK : Nat := 200

/-- Status `http.StatusCreated`. -/
def StatusCreated : Nat := 201

/-- Status `http.StatusNoContent`. -/
def StatusNoContent : Nat := 204

/-- Status `http.StatusBadRequest`. -/
def StatusBadRequest : Nat := 400

/-- Status `http.StatusNotFound`. -/
def StatusNotFound : Nat := 404

/-- Status `http.StatusInternalServerError`. -/
def StatusInternalServerError : Nat := 500

/-! ## Request bodies as `c.Bind` sees them

A field is `some v` when the JSON object has the key (with a non-null value);
`Bind` then overwrites the field of the record it is given and leaves every
other field as it was. -/

/-- The JSON keys of the embedded `gorm.Model` (it has no `json` tags, so the
keys are the field names).  `DeletedAt` is `some none` for an explicit `null`. -/
structure ModelKeys where
  ID : Option Nat
  CreatedAt : Option Time
  UpdatedAt : Option Time
  DeletedAt : Option (Option Time)
  deriving DecidableEq, Repr

/-- Overlay of the present keys on a `gorm.Model`. -/
def ModelKeys.bind (k : ModelKeys) (m : Model) : Model :=
  { ID := k.ID.getD m.ID,
    CreatedAt := k.CreatedAt.getD m.CreatedAt,
    UpdatedAt := k.UpdatedAt.getD m.UpdatedAt,
    DeletedAt := k.DeletedAt.getD m.DeletedAt }

/-- No key of the embedded `gorm.Model` is present. -/
def ModelKeys.absent : ModelKeys := ⟨none, none, none, none⟩

/-- A JSON body bound to a `Category` (its `products` array apart). -/
structure CategoryBody extends ModelKeys where
  name : Option String
  deriving DecidableEq, Repr

/-- The effect of `c.Bind(&category)` with body `b` on the record `c`. -/
def CategoryBody.bind (b : CategoryBody) (c : CategoryRow) : CategoryRow :=
  { toModel := b.toModelKeys.bind c.toModel, Name := b.name.getD c.Name }

/-- A JSON body bound to a `Product`: the keys of `gorm.Model`, `name`,
`price`, `category_id` and the object `category`. -/
structure ProductBody extends ModelKeys where
  name : Option String
  price : Option F64
  category_id : Option Nat
  category : Option CategoryBody
  deriving DecidableEq, Repr

/-- The effect of `c.Bind(&product)` with body `b` on the record `p`. -/
def ProductBody.bind (b : ProductBody) (p : Product) : Product :=
  { toModel := b.toModelKeys.bind p.toModel,
    Name := b.name.getD p.Name,
    Price := b.price.getD p.Price,
    CategoryID := b.category_id.getD p.CategoryID,
    Category :=
      match b.category with
      | some c => c.bind p.Category
      | none => p.Category }

/-- The `Category` field of a product that was loaded without `Preload` and
then bound to body `b`. -/
def ProductBody.boundCategory (b : ProductBody) : CategoryRow :=
  match b.category with
  | some c => c.bind CategoryRow.zero
  | none => CategoryRow.zero

/-- A JSON body bound to a `Cart`. -/
structure CartBody extends ModelKeys where
  user_id : Option Nat
  cart_value : Option F64
  deriving DecidableEq, Repr

/-- The effect of `c.Bind(&cart)` with body `b` on the record `c`. -/
def CartBody.bind (b : CartBody) (c : Cart) : Cart :=
  { toModel := b.toModelKeys.bind c.toModel,
    UserID := b.user_id.getD c.UserID,
    CartValue := b.cart_value.getD c.CartValue }

/-- One element of `payload.Items` in `createPayment`. -/
structure PayloadItem where
  ID : Nat
  Name : String
  Price : F64
  Qty : Nat
  deriving DecidableEq, Repr

/-- The field `payload.Customer` in `createPayment`. -/
structure PayloadCustomer where
  Name : String
  Email : String
  deriving DecidableEq, Repr

/-- The anonymous struct `payload` of `createPayment`, after a successful bind. -/
structure Payload where
  Customer : PayloadCustomer
  Items : List PayloadItem
  deriving DecidableEq, Repr

/-! ## Handlers (`main.go`, lines 99–289) -/

/-- Handler `getProducts`. -/
def getProducts (s : Store) (fault : Option String) : Response :=
  match (Query.mk []).Find s.products fault with
  | Except.error e => ⟨StatusInternalServerError, Body.error e⟩
  | Except.ok products => ⟨StatusOK, Body.products (products.map (preloadCategory s))⟩

/-- Handler `getProductByID`. -/
def getProductByID (s : Store) (idParam : String) (fault : Option String) : Response :=
  let id := Atoi idParam
  match dbFirst s.products id fault with
  | Except.error _ => ⟨StatusNotFound, Body.message ProductNotFoundStr⟩
  | Except.ok product => ⟨StatusOK, Body.product (preloadCategory s product)⟩

/-- Handler `createProduct`. -/
def createProduct (s : Store) (body : Except String ProductBody) (now : Time)
    (fault : Option String) : Store × Response :=
  match body with
  | Except.error e => (s, ⟨StatusBadRequest, Body.error e⟩)
  | Except.ok b =>
    let newProduct := b.bind Product.zero
    match dbCreateProduct s newProduct now fault with
    | Except.error e => (s, ⟨StatusInternalServerError, Body.error e⟩)
    | Except.ok (s1, created) => (s1, ⟨StatusCreated, Body.product created⟩)

/-- Handler `updateProduct`. -/
def updateProduct (s : Store) (idParam : String) (body : Except String ProductBody)
    (now : Time) (firstFault saveFault : Option String) : Store × Response :=
  let id := Atoi idParam
  match dbFirst s.products id firstFault with
  | Except.error _ => (s, ⟨StatusNotFound, Body.message ProductNotFoundStr⟩)
  | Except.ok product =>
    match body with
    | Except.error e => (s, ⟨StatusBadRequest, Body.error e⟩)
    | Except.ok b =>
      let bound := b.bind product.bare
      match dbSaveProduct s bound now saveFault with
      | Except.error e => (s, ⟨StatusInternalServerError, Body.error e⟩)
      | Except.ok (s1, saved) => (s1, ⟨StatusOK, Body.product saved⟩)

/-- Handler `deleteProduct`. -/
def deleteProduct (s : Store) (idParam : String) (now : Time)
    (firstFault deleteFault : Option String) : Store × Response :=
  let id := Atoi idParam
  match dbFirst s.products id firstFault with
  | Except.error _ => (s, ⟨StatusNotFound, Body.message ProductNotFoundStr⟩)
  | Except.ok product =>
    match dbDelete s.products product now deleteFault with
    | Except.error e => (s, ⟨StatusInternalServerError, Body.error e⟩)
    | Except.ok tbl => ({ s with products := tbl }, ⟨StatusNoContent, Body.noContent⟩)

/-- Scope `ScopeMinPrice`: `db.Where("price >= ?", min)`. -/
def ScopeMinPrice (min : F64) : Query ProductRow → Query ProductRow :=
  fun db => db.Where (fun p => F64.le min p.Price)

/-- Scope `ScopeCategoryID`: `db.Where("category_id = ?", catID)`. -/
def ScopeCategoryID (catID : Nat) : Query ProductRow → Query ProductRow :=
  fun db => db.Where (fun p => decide (p.CategoryID = catID))

/-- Handler `filterProducts`.  `ParseFloat s` is the value of
`strconv.ParseFloat(s, 64)` when its `err == nil`, and `none` otherwise; an
absent query parameter is the empty string (`c.QueryParam`). -/
def filterProducts (ParseFloat : String → Option F64) (s : Store)
    (minPriceStr categoryIDStr : String) (fault : Option String) : Response :=
  let dbQuery : Query ProductRow := Query.mk []
  let dbQuery :=
    if minPriceStr ≠ "" then
      match ParseFloat minPriceStr with
      | some minPrice => dbQuery.Scopes (ScopeMinPrice minPrice)
      | none => dbQuery
    else dbQuery
  let dbQuery :=
    if categoryIDStr ≠ "" then
      match ParseUint categoryIDStr with
      | some catID => dbQuery.Scopes (ScopeCategoryID catID)
      | none => dbQuery
    else dbQuery
  match dbQuery.Find s.products fault with
  | Except.error e => ⟨StatusInternalServerError, Body.error e⟩
  | Except.ok products => ⟨StatusOK, Body.products (products.map (preloadCategory s))⟩

/-- Handler `getCarts`. -/
def getCarts (s : Store) (fault : Option String) : Response :=
  match (Query.mk []).Find s.carts fault with
  | Except.error e => ⟨StatusInternalServerError, Body.error e⟩
  | Except.ok carts => ⟨StatusOK, Body.carts carts⟩

/-- Handler `createCart`. -/
def createCart (s : Store) (body : Except String CartBody) (now : Time)
    (fault : Option String) : Store × Response :=
  match body with
  | Except.error e => (s, ⟨StatusBadRequest, Body.error e⟩)
  | Except.ok b =>
    let cart := b.bind Cart.zero
    match dbCreate s.carts cart now fault with
    | Except.error e => (s, ⟨StatusInternalServerError, Body.error e⟩)
    | Except.ok (tbl, created) => ({ s with carts := tbl }, ⟨StatusCreated, Body.cart created⟩)

/-- Handler `getCategories`. -/
def getCategories (s : Store) (fault : Option String) : Response :=
  match (Query.mk []).Find s.categories fault with
  | Except.error e => ⟨StatusInternalServerError, Body.error e⟩
  | Except.ok categories => ⟨StatusOK, Body.categories (categories.map (preloadProducts s))⟩

/-- Handler `getCategoryByID`. -/
def getCategoryByID (s : Store) (idParam : String) (fault : Option String) : Response :=
  let id := Atoi idParam
  match dbFirst s.categories id fault with
  | Except.error _ => ⟨StatusNotFound, Body.message "Category not found"⟩
  | Except.ok category => ⟨StatusOK, Body.category (preloadProducts s category)⟩

/-- Handler `createCategory`. -/
def createCategory (s : Store) (body : Except String CategoryBody) (now : Time)
    (fault : Option String) : Store × Response :=
  match body with
  | Except.error e => (s, ⟨StatusBadRequest, Body.error e⟩)
  | Except.ok b =>
    let category := b.bind CategoryRow.zero
    match dbCreate s.categories category now fault with
    | Except.error e => (s, ⟨StatusInternalServerError, Body.error e⟩)
    | Except.ok (tbl, created) =>
      ({ s with categories := tbl }, ⟨StatusCreated, Body.category created.bare⟩)

/-- The loop of `createPayment`, lines 244–247:
`for _, it := range payload.Items { total += it.Price * float64(it.Qty) }`. -/
def paymentTotal (items : List PayloadItem) : F64 :=
  items.foldl (fun total it => total + it.Price * F64.ofNat it.Qty) F64.zero

/-- The loop of `createPayment`, lines 254–261: one `PaymentItem` appended per
payload item. -/
def paymentItems (items : List PayloadItem) : List PaymentItem :=
  items.foldl (fun acc it => acc ++
    [{ toModel := Model.zero, PaymentID := 0, ProductID := it.ID, Name := it.Name,
       Price := it.Price, Qty := it.Qty }]) []

/-- The `Payment` value `createPayment` has built when it reaches the
transaction (lines 244–261). -/
def buildPayment (payload : Payload) : Payment :=
  { toModel := Model.zero,
    CustomerName := payload.Customer.Name,
    CustomerEmail := payload.Customer.Email,
    Total := paymentTotal payload.Items,
    Items := paymentItems payload.Items }

/-- The storage failures a payment creation can meet: at the `INSERT` of the
payment row, at the `INSERT` of its item rows, at the commit. -/
structure TxFault where
  insertPayment : Option String
  insertItems : Option String
  commit : Option String
  deriving DecidableEq, Repr

/-- No storage failure. -/
def TxFault.none : TxFault := ⟨Option.none, Option.none, Option.none⟩

/-- The statements of `tx.Create(&payment)`: the payment row first, then, when
there are items, one `INSERT` of all of them with `payment_id` set to the key
the payment just got.  Returns the store the executed statements left. -/
def txCreatePayment (payment : Payment) (now : Time) (fault : TxFault) (tx : Store) :
    Store × Except String Payment :=
  match dbCreate tx.payments payment.toPaymentRow now fault.insertPayment with
  | Except.error e => (tx, Except.error e)
  | Except.ok (tbl, row) =>
    let tx1 := { tx with payments := tbl }
    match payment.Items with
    | [] => (tx1, Except.ok { toPaymentRow := row, Items := [] })
    | it :: its =>
      match fault.insertItems with
      | some e => (tx1, Except.error e)
      | Option.none =>
        match dbCreateBatch tx1.paymentItems
            ((it :: its).map (fun i => { i with PaymentID := row.ID })) now with
        | Except.error e => (tx1, Except.error e)
        | Except.ok (tbl2, items) =>
          ({ tx1 with paymentItems := tbl2 }, Except.ok { toPaymentRow := row, Items := items })

/-- Handler `createPayment`. -/
def createPayment (s : Store) (body : Except String Payload) (now : Time) (fault : TxFault) :
    Store × Response :=
  match body with
  | Except.error _ => (s, ⟨StatusBadRequest, Body.error "Niepoprawny format danych"⟩)
  | Except.ok payload =>
    let payment := buildPayment payload
    match dbTransaction s (txCreatePayment payment now fault) fault.commit with
    | (s1, Except.error e) => (s1, ⟨StatusInternalServerError, Body.error e⟩)
    | (s1, Except.ok created) =>
      (s1, ⟨StatusCreated, Body.accepted "Płatność przyjęta" created⟩)

/-! ## The server (`main`, lines 79–93) -/

/-- One request to a route registered in `main`, with what the environment
contributes to it. -/
inductive Request where
  | getProducts (fault : Option String)
  | getProductByID (id : String) (fault : Option String)
  | createProduct (body : Except String ProductBody) (now : Time) (fault : Option String)
  | updateProduct (id : String) (body : Except String ProductBody) (now : Time)
      (firstFault saveFault : Option String)
  | deleteProduct (id : String) (now : Time) (firstFault deleteFault : Option String)
  | filterProducts (minPrice categoryID : String) (fault : Option String)
  | getCarts (fault : Option String)
  | createCart (body : Except String CartBody) (now : Time) (fault : Option String)
  | getCategories (fault : Option String)
  | getCategoryByID (id : String) (fault : Option String)
  | createCategory (body : Except String CategoryBody) (now : Time) (fault : Option String)
  | createPayment (body : Except String Payload) (now : Time) (fault : TxFault)

/-- The route table of `main`: the handler a request is dispatched to. -/
def handle (ParseFloat : String → Option F64) (s : Store) : Request → Store × Response
  | Request.getProducts fault => (s, getProducts s fault)
  | Request.getProductByID id fault => (s, getProductByID s id fault)
  | Request.createProduct body now fault => createProduct s body now fault
  | Request.updateProduct id body now f1 f2 => updateProduct s id body now f1 f2
  | Request.deleteProduct id now f1 f2 => deleteProduct s id now f1 f2
  | Request.filterProducts minPrice categoryID fault =>
    (s, filterProducts ParseFloat s minPrice categoryID fault)
  | Request.getCarts fault => (s, getCarts s fault)
  | Request.createCart body now fault => createCart s body now fault
  | Request.getCategories fault => (s, getCategories s fault)
  | Request.getCategoryByID id fault => (s, getCategoryByID s id fault)
  | Request.createCategory body now fault => createCategory s body now fault
  | Request.createPayment body now fault => createPayment s body now fault

/-- The stores the server can be in: from the empty database, after any
sequence of requests. -/
inductive Reachable : Store → Prop where
  | init : Reachable Store.empty
  | step {s : Store} (ParseFloat : String → Option F64) (r : Request) :
      Reachable s → Reachable (handle ParseFloat s r).1

/-! ## Specification-side definitions -/

/-- The sum the specification describes for a payment: over the items taken in
order starting from index 0, of `price * qty`; `lineSum items k` is the sum of
the first `k` items. -/
def lineSum (items : List PayloadItem) : Nat → F64
  | 0 => F64.zero
  | k + 1 =>
    match items[k]? with
    | some it => lineSum items k + it.Price * F64.ofNat it.Qty
    | none => lineSum items k

/-- The snapshot a `PaymentItem` carries of its request item. -/
def PaymentItem.snapshot (i : PaymentItem) : Nat × String × F64 × Nat :=
  (i.ProductID, i.Name, i.Price, i.Qty)

/-- The snapshot fields of a request item. -/
def PayloadItem.snapshot (i : PayloadItem) : Nat × String × F64 × Nat :=
  (i.ID, i.Name, i.Price, i.Qty)

/-- The result of the `DB.Transaction` call of `createPayment` on a bound
`payload`: the store it leaves and its `err`. -/
def paymentWrite (s : Store) (payload : Payload) (now : Time) (fault : TxFault) :
    Store × Except String Payment :=
  dbTransaction s (txCreatePayment (buildPayment payload) now fault) fault.commit

/-- The restriction of `strconv.ParseFloat(s, 64)` to the strings of decimal
digits that denote a `uint64` (on these it returns the nearest binary64, with
`err == nil`); used to instantiate the `ParseFloat` parameter on examples. -/
def digitsFloat (s : String) : Option F64 := (ParseUint s).map F64.ofNat

/-- A small database: category 2, and three products of which one is cheap, one
is of another category and one is soft-deleted. -/
def exampleStore : Store :=
  { categories := [⟨⟨2, 1, 1, none⟩, "Books"⟩, ⟨⟨3, 1, 1, none⟩, "Games"⟩],
    products :=
      [⟨⟨1, 2, 2, none⟩, "Go Guide", F64.ofNat 30, 2⟩,
       ⟨⟨2, 3, 3, none⟩, "Leaflet", F64.ofNat 5, 2⟩,
       ⟨⟨3, 4, 4, none⟩, "Chess", F64.ofNat 40, 3⟩,
       ⟨⟨4, 5, 6, some 6⟩, "Atlas", F64.ofNat 50, 2⟩],
    carts := [],
    payments := [],
    paymentItems := [] }

/-- No row of `tbl` is missing from `tbl1`: every primary key of `tbl` is still
the key of a row of `tbl1`. -/
def keepsRows {α : Type} [Row α] (tbl tbl1 : List α) : Prop :=
  ∀ x ∈ tbl, ∃ y ∈ tbl1, rowID y = rowID x

/-- No row of any table of `s` is missing from `s1`. -/
def Store.keeps (s s1 : Store) : Prop :=
  keepsRows s.categories s1.categories ∧ keepsRows s.products s1.products ∧
  keepsRows s.carts s1.carts ∧ keepsRows s.payments s1.payments ∧
  keepsRows s.paymentItems s1.paymentItems

/-- The sum, over item rows taken in storage order from `+0`, of
`price * float64(qty)`. -/
def itemsSum (rows : List PaymentItem) : F64 :=
  rows.foldl (fun acc it => acc + it.Price * F64.ofNat it.Qty) F64.zero

/-- The item rows that reference the payment with key `id`. -/
def itemsOf (s : Store) (id : Nat) : List PaymentItem :=
  s.paymentItems.filter (fun it => decide (it.PaymentID = id))

/-- Whether a request goes to `createPayment`. -/
def Request.isCreatePayment : Request → Bool
  | Request.createPayment _ _ _ => true
  | _ => false

/-- The row `Create` writes for a value with a zero primary key. -/
def autoRow {α : Type} [Row α] (tbl : List α) (v : α) (now : Time) : α :=
  Row.setModel
    { ID := nextID tbl,
      CreatedAt := if (Row.model v).CreatedAt = 0 then now else (Row.model v).CreatedAt,
      UpdatedAt := if (Row.model v).UpdatedAt = 0 then now else (Row.model v).UpdatedAt,
      DeletedAt := (Row.model v).DeletedAt } v

/-! ## Lemmas on tables -/

section TableLemmas

variable {α : Type} [Row α]

theorem rowID_setModel (m : Model) (r : α) : rowID (Row.setModel m r) = m.ID := by
  simp [rowID, Row.model_setModel]

theorem le_foldr_max (l : List Nat) (x : Nat) (hx : x ∈ l) : x ≤ l.foldr max 0 := by
  induction l with
  | nil => cases hx
  | cons y ys ih =>
    simp only [List.foldr_cons]
    rcases List.mem_cons.mp hx with h | h
    · subst h; exact le_max_left _ _
    · exact le_trans (ih h) (le_max_right _ _)

theorem rowID_lt_nextID (tbl : List α) (r : α) (hr : r ∈ tbl) : rowID r < nextID tbl := by
  have := le_foldr_max (tbl.map rowID) (rowID r) (List.mem_map_of_mem _ hr)
  unfold nextID
  omega

theorem insertRow_of_lt (r : α) (tbl : List α) (h : ∀ x ∈ tbl, rowID x < rowID r) :
    insertRow r tbl = tbl ++ [r] := by
  induction tbl with
  | nil => rfl
  | cons x xs ih =>
    have hx : ¬ rowID r < rowID x := by
      have := h x (List.mem_cons_self _ _)
      omega
    simp only [insertRow, hx, if_false, List.cons_append]
    rw [ih (fun y hy => h y (List.mem_cons_of_mem _ hy))]

theorem dbCreate_zero (tbl : List α) (v : α) (now : Time) (hv : (Row.model v).ID = 0) :
    dbCreate tbl v now none = Except.ok (tbl ++ [autoRow tbl v now], autoRow tbl v now) := by
  simp only [dbCreate, hv, if_true, autoRow]
  rw [insertRow_of_lt]
  intro x hx
  rw [rowID_setModel]
  exact rowID_lt_nextID tbl x hx

theorem dbCreateBatch_zero (vs : List α) (now : Time) (hv : ∀ v ∈ vs, (Row.model v).ID = 0) :
    ∀ tbl : List α, ∃ out : List α,
      dbCreateBatch tbl vs now = Except.ok (tbl ++ out, out) ∧
      ∀ {β : Type} (f : α → β), (∀ m v, f (Row.setModel m v) = f v) → out.map f = vs.map f := by
  induction vs with
  | nil => intro tbl; exact ⟨[], by simp [dbCreateBatch], fun _ _ => rfl⟩
  | cons v rest ih =>
    intro tbl
    obtain ⟨out, hout, hmap⟩ :=
      ih (fun x hx => hv x (List.mem_cons_of_mem _ hx)) (tbl ++ [autoRow tbl v now])
    refine ⟨autoRow tbl v now :: out, ?_, ?_⟩
    · rw [dbCreateBatch, dbCreate_zero tbl v now (hv v (List.mem_cons_self _ _))]
      simp only [hout, List.append_assoc, List.singleton_append]
    · intro β f hf
      simp only [List.map_cons, hmap f hf, autoRow, hf]

end TableLemmas

/-! ## Payment creation -/

theorem paymentTotal_append (xs : List PayloadItem) (x : PayloadItem) :
    paymentTotal (xs ++ [x]) = paymentTotal xs + x.Price * F64.ofNat x.Qty := by
  simp [paymentTotal, List.foldl_append]

theorem lineSum_append (xs ys : List PayloadItem) :
    ∀ k, k ≤ xs.length → lineSum (xs ++ ys) k = lineSum xs k := by
  intro k
  induction k with
  | zero => intro _; rfl
  | succ k ih =>
    intro hk
    have hlt : k < xs.length := hk
    simp only [lineSum, List.getElem?_append_left hlt, ih (Nat.le_of_lt hlt)]

theorem paymentTotal_eq_lineSum (items : List PayloadItem) :
    paymentTotal items = lineSum items items.length := by
  induction items using List.reverseRecOn with
  | nil => rfl
  | append_singleton xs x ih =>
    rw [paymentTotal_append, List.length_append, List.length_singleton, lineSum]
    simp only [List.getElem?_concat_length]
    rw [lineSum_append xs [x] xs.length (le_refl _), ih]

theorem paymentItems_eq_map (items : List PayloadItem) :
    paymentItems items = items.map (fun it =>
      ({ toModel := Model.zero, PaymentID := 0, ProductID := it.ID, Name := it.Name,
         Price := it.Price, Qty := it.Qty } : PaymentItem)) := by
  induction items using List.reverseRecOn with
  | nil => rfl
  | append_singleton xs x ih =>
    unfold paymentItems at ih ⊢
    rw [List.foldl_append, ih]
    simp

/-- What the statements of a payment creation do when none of them fails: they
append one payment row with a fresh key and the request's data, and one item
row per request item, each carrying the new payment's key and the item's
snapshot. -/
theorem txCreatePayment_ok (s : Store) (payload : Payload) (now : Time) (fault : TxFault)
    (h1 : fault.insertPayment = none) (h2 : payload.Items = [] ∨ fault.insertItems = none) :
    ∃ items : List PaymentItem,
      txCreatePayment (buildPayment payload) now fault s =
        ({ s with
            payments := s.payments ++ [autoRow s.payments (buildPayment payload).toPaymentRow now],
            paymentItems := s.paymentItems ++ items },
         Except.ok
          { toPaymentRow := autoRow s.payments (buildPayment payload).toPaymentRow now,
            Items := items }) ∧
      items.map PaymentItem.snapshot = payload.Items.map PayloadItem.snapshot ∧
      (∀ it ∈ items, it.PaymentID = nextID s.payments) := by
  have hrow : dbCreate s.payments (buildPayment payload).toPaymentRow now fault.insertPayment =
      Except.ok (s.payments ++ [autoRow s.payments (buildPayment payload).toPaymentRow now],
        autoRow s.payments (buildPayment payload).toPaymentRow now) := by
    rw [h1]; exact dbCreate_zero _ _ _ rfl
  cases hitems : payload.Items with
  | nil =>
    refine ⟨[], ?_, by simp, by simp⟩
    have hI : (buildPayment payload).Items = [] := by simp [buildPayment, hitems, paymentItems]
    simp only [txCreatePayment, hrow, hI, List.append_nil]
  | cons it its =>
    have hf : fault.insertItems = none := by
      rcases h2 with h | h
      · rw [hitems] at h; cases h
      · exact h
    have hI : (buildPayment payload).Items =
        ({ toModel := Model.zero, PaymentID := 0, ProductID := it.ID, Name := it.Name,
           Price := it.Price, Qty := it.Qty } : PaymentItem) ::
        its.map (fun it =>
          ({ toModel := Model.zero, PaymentID := 0, ProductID := it.ID, Name := it.Name,
             Price := it.Price, Qty := it.Qty } : PaymentItem)) := by
      simp [buildPayment, hitems, paymentItems_eq_map]
    obtain ⟨out, hout, hmap⟩ := dbCreateBatch_zero
      ((({ toModel := Model.zero, PaymentID := 0, ProductID := it.ID, Name := it.Name,
           Price := it.Price, Qty := it.Qty } : PaymentItem) ::
        its.map (fun it =>
          ({ toModel := Model.zero, PaymentID := 0, ProductID := it.ID, Name := it.Name,
             Price := it.Price, Qty := it.Qty } : PaymentItem))).map
        (fun i => { i with PaymentID :=
          (autoRow s.payments (buildPayment payload).toPaymentRow now).ID })) now
      (by intro v hv; simp only [List.mem_map] at hv; obtain ⟨w, hw, rfl⟩ := hv
          rcases List.mem_cons.mp hw with h | h
          · subst h; rfl
          · simp only [List.mem_map] at h; obtain ⟨u, _, rfl⟩ := h; rfl)
      s.paymentItems
    refine ⟨out, ?_, ?_, ?_⟩
    · simp only [txCreatePayment, hrow, hI, hf, hout]
    · have := hmap PaymentItem.snapshot (fun _ _ => rfl)
      rw [this]
      simp [PaymentItem.snapshot, PayloadItem.snapshot, Function.comp_def]
    · intro i hi
      have hmem := List.mem_map_of_mem (fun i : PaymentItem => i.PaymentID) hi
      rw [hmap (fun i : PaymentItem => i.PaymentID) (fun _ _ => rfl)] at hmem
      simp only [List.map_map, List.mem_map] at hmem
      obtain ⟨w, _, hw⟩ := hmem
      rw [← hw]
      rfl

/-- A payment creation that meets no storage failure commits what its
statements wrote. -/
theorem paymentWrite_ok (s : Store) (payload : Payload) (now : Time) (fault : TxFault)
    (h1 : fault.insertPayment = none) (h2 : payload.Items = [] ∨ fault.insertItems = none)
    (h3 : fault.commit = none) :
    ∃ items : List PaymentItem,
      paymentWrite s payload now fault =
        ({ s with
            payments := s.payments ++ [autoRow s.payments (buildPayment payload).toPaymentRow now],
            paymentItems := s.paymentItems ++ items },
         Except.ok
          { toPaymentRow := autoRow s.payments (buildPayment payload).toPaymentRow now,
            Items := items }) ∧
      items.map PaymentItem.snapshot = payload.Items.map PayloadItem.snapshot ∧
      (∀ it ∈ items, it.PaymentID = nextID s.payments) := by
  obtain ⟨items, h, hs, hp⟩ := txCreatePayment_ok s payload now fault h1 h2
  exact ⟨items, by simp only [paymentWrite, dbTransaction, h, h3], hs, hp⟩

/-- A payment creation that meets a storage failure leaves the store as it
was and returns an error. -/
theorem paymentWrite_fault (s : Store) (payload : Payload) (now : Time) (fault : TxFault)
    (h : fault.insertPayment ≠ none ∨ (payload.Items ≠ [] ∧ fault.insertItems ≠ none) ∨
      fault.commit ≠ none) :
    ∃ e, paymentWrite s payload now fault = (s, Except.error e) := by
  cases h1 : fault.insertPayment with
  | some e =>
    exact ⟨e, by simp [paymentWrite, dbTransaction, txCreatePayment, dbCreate, h1]⟩
  | none =>
    by_cases h2 : payload.Items = [] ∨ fault.insertItems = none
    · obtain ⟨items, hok, _, _⟩ := txCreatePayment_ok s payload now fault h1 h2
      cases h3 : fault.commit with
      | some e => exact ⟨e, by simp only [paymentWrite, dbTransaction, hok, h3]⟩
      | none =>
        exfalso
        rcases h with h | h | h
        · exact h h1
        · rcases h2 with h2 | h2
          · exact h.1 h2
          · exact h.2 h2
        · exact h h3
    · have hne : payload.Items ≠ [] := fun hc => h2 (Or.inl hc)
      have hf : fault.insertItems ≠ none := fun hc => h2 (Or.inr hc)
      obtain ⟨e, he⟩ := Option.ne_none_iff_exists.mp hf
      obtain ⟨it, its, hits⟩ := List.exists_cons_of_ne_nil hne
      have hI : (buildPayment payload).Items =
          paymentItems [it] ++ (its.map (fun it =>
            ({ toModel := Model.zero, PaymentID := 0, ProductID := it.ID, Name := it.Name,
               Price := it.Price, Qty := it.Qty } : PaymentItem))) := by
        simp [buildPayment, hits, paymentItems_eq_map]
      refine ⟨e, ?_⟩
      have hrow := dbCreate_zero s.payments (buildPayment payload).toPaymentRow now rfl
      simp only [paymentWrite, dbTransaction, txCreatePayment, h1, hrow, hI, paymentItems,
        List.foldl_cons, List.foldl_nil, List.nil_append, List.singleton_append, ← he]

set_option maxRecDepth 100000 in
/-- In binary64, `0 + 10 * 2 + 5 * 1` is `25`. -/
theorem binary64_example :
    F64.zero + F64.ofNat 10 * F64.ofNat 2 + F64.ofNat 5 * F64.ofNat 1 = F64.ofNat 25 := by
  decide

/-- C1.  For every bound payment request, the `Payment` that `createPayment`
builds has `Total` equal to the sum, over the request's items taken in order
from index 0, of `price * float64(qty)`; so has the payment row it persists and
the payment it returns when storage does not fail.  For an empty item list the
total is `0`, and for items `[{price:10, qty:2}, {price:5, qty:1}]` it is `25`. -/
theorem createPayment_total (s : Store) (payload : Payload) (now : Time) :
    (buildPayment payload).Total = lineSum payload.Items payload.Items.length ∧
    (∃ (row : PaymentRow) (created : Payment),
      (createPayment s (Except.ok payload) now TxFault.none).1.payments = s.payments ++ [row] ∧
      (createPayment s (Except.ok payload) now TxFault.none).2 =
        ⟨201, Body.accepted "Płatność przyjęta" created⟩ ∧
      row.Total = lineSum payload.Items payload.Items.length ∧
      created.Total = lineSum payload.Items payload.Items.length) ∧
    (∀ c : PayloadCustomer, (buildPayment ⟨c, []⟩).Total = F64.zero) ∧
    (∀ (c : PayloadCustomer) (i1 i2 : Nat) (n1 n2 : String),
      (buildPayment ⟨c, [⟨i1, n1, F64.ofNat 10, 2⟩, ⟨i2, n2, F64.ofNat 5, 1⟩]⟩).Total =
        F64.ofNat 25) := by
  refine ⟨paymentTotal_eq_lineSum payload.Items, ?_, fun _ => rfl, ?_⟩
  · obtain ⟨items, h, _, _⟩ := paymentWrite_ok s payload now TxFault.none rfl (Or.inr rfl) rfl
    refine ⟨autoRow s.payments (buildPayment payload).toPaymentRow now,
      { toPaymentRow := autoRow s.payments (buildPayment payload).toPaymentRow now,
        Items := items }, ?_, ?_,
      paymentTotal_eq_lineSum payload.Items, paymentTotal_eq_lineSum payload.Items⟩
    · unfold paymentWrite at h
      simp only [createPayment, h]
    · unfold paymentWrite at h
      simp only [createPayment, h, StatusCreated]
  · intro c i1 i2 n1 n2
    show paymentTotal [⟨i1, n1, F64.ofNat 10, 2⟩, ⟨i2, n2, F64.ofNat 5, 1⟩] = _
    unfold paymentTotal
    rw [List.foldl_cons, List.foldl_cons, List.foldl_nil]
    exact binary64_example

/-- C2.  For every bound payment request with `n` items, the `Payment` built by
`createPayment` has exactly `n` `PaymentItem`s, in the order of the request, the
`i`-th carrying the `product_id`, `name`, `price` and `qty` of the `i`-th request
item verbatim, and it carries the request's customer name and email; the same
holds of the payment returned when storage does not fail. -/
theorem createPayment_items (s : Store) (payload : Payload) (now : Time) :
    (buildPayment payload).Items.length = payload.Items.length ∧
    (∀ i : Nat, ((buildPayment payload).Items[i]?).map PaymentItem.snapshot =
      (payload.Items[i]?).map PayloadItem.snapshot) ∧
    (buildPayment payload).CustomerName = payload.Customer.Name ∧
    (buildPayment payload).CustomerEmail = payload.Customer.Email ∧
    (∃ created : Payment,
      (createPayment s (Except.ok payload) now TxFault.none).2 =
        ⟨201, Body.accepted "Płatność przyjęta" created⟩ ∧
      created.Items.length = payload.Items.length ∧
      (∀ i : Nat, (created.Items[i]?).map PaymentItem.snapshot =
        (payload.Items[i]?).map PayloadItem.snapshot) ∧
      created.CustomerName = payload.Customer.Name ∧
      created.CustomerEmail = payload.Customer.Email) := by
  have hb : (buildPayment payload).Items.map PaymentItem.snapshot =
      payload.Items.map PayloadItem.snapshot := by
    simp [buildPayment, paymentItems_eq_map, PaymentItem.snapshot, PayloadItem.snapshot,
      Function.comp_def]
  refine ⟨?_, ?_, rfl, rfl, ?_⟩
  · simpa using congrArg List.length hb
  · intro i
    simpa [List.getElem?_map] using congrArg (fun l => l[i]?) hb
  · obtain ⟨items, h, hs, _⟩ := paymentWrite_ok s payload now TxFault.none rfl (Or.inr rfl) rfl
    refine ⟨Payment.mk (autoRow s.payments (buildPayment payload).toPaymentRow now) items,
      ?_, ?_, ?_, rfl, rfl⟩
    · unfold paymentWrite at h
      simp only [createPayment, h, StatusCreated]
    · simpa using congrArg List.length hs
    · intro i
      simpa [List.getElem?_map] using congrArg (fun l => l[i]?) hs

/-- C3.  Payment creation is all-or-nothing on the store.  If the storage
write of `createPayment` (its `DB.Transaction`) fails, the store after the call
is the store before it and the response is 500 with the error text; if it
succeeds, exactly one payment row, with a key no earlier payment has, and one
item row per request item are added, each item row referencing the new payment,
and nothing else changes.  The write fails exactly when a statement it executes
or its commit fails; in particular a failure of the items `INSERT` comes after
the payment row was written inside the transaction. -/
theorem createPayment_all_or_nothing (s : Store) (payload : Payload) (now : Time)
    (fault : TxFault) :
    (∀ e, (paymentWrite s payload now fault).2 = Except.error e →
      createPayment s (Except.ok payload) now fault = (s, ⟨500, Body.error e⟩)) ∧
    (∀ created, (paymentWrite s payload now fault).2 = Except.ok created →
      ∃ (row : PaymentRow) (items : List PaymentItem),
        (createPayment s (Except.ok payload) now fault).1 =
          { s with payments := s.payments ++ [row],
                   paymentItems := s.paymentItems ++ items } ∧
        (∀ p ∈ s.payments, p.ID ≠ row.ID) ∧
        items.length = payload.Items.length ∧
        (∀ it ∈ items, it.PaymentID = row.ID)) ∧
    ((∃ e, (paymentWrite s payload now fault).2 = Except.error e) ↔
      (fault.insertPayment ≠ none ∨ (payload.Items ≠ [] ∧ fault.insertItems ≠ none) ∨
        fault.commit ≠ none)) ∧
    (fault.insertPayment = none → payload.Items ≠ [] → fault.insertItems ≠ none →
      ∃ row : PaymentRow,
        (txCreatePayment (buildPayment payload) now fault s).1.payments = s.payments ++ [row] ∧
        (createPayment s (Except.ok payload) now fault).1.payments = s.payments) := by
  by_cases hact : fault.insertPayment ≠ none ∨ (payload.Items ≠ [] ∧ fault.insertItems ≠ none) ∨
      fault.commit ≠ none
  · obtain ⟨e0, he0⟩ := paymentWrite_fault s payload now fault hact
    have hcp : createPayment s (Except.ok payload) now fault = (s, ⟨500, Body.error e0⟩) := by
      unfold paymentWrite at he0
      simp only [createPayment, he0, StatusInternalServerError]
    refine ⟨?_, ?_, ⟨fun _ => hact, fun _ => ⟨e0, by rw [he0]⟩⟩, ?_⟩
    · intro e he
      rw [he0] at he
      cases he
      exact hcp
    · intro created hc
      rw [he0] at hc
      cases hc
    · intro h1 _ _
      refine ⟨autoRow s.payments (buildPayment payload).toPaymentRow now, ?_, by rw [hcp]⟩
      have hrow := dbCreate_zero s.payments (buildPayment payload).toPaymentRow now rfl
      unfold txCreatePayment
      rw [h1, hrow]
      dsimp only
      split <;> [rfl; (split <;> [rfl; (split <;> rfl)])]
  · have h1 : fault.insertPayment = none := by
      by_contra h; exact hact (Or.inl h)
    have h2 : payload.Items = [] ∨ fault.insertItems = none := by
      by_contra h
      push_neg at h
      exact hact (Or.inr (Or.inl h))
    have h3 : fault.commit = none := by
      by_contra h; exact hact (Or.inr (Or.inr h))
    obtain ⟨items, h, hs, hp⟩ := paymentWrite_ok s payload now fault h1 h2 h3
    refine ⟨?_, ?_, ⟨fun ⟨e, he⟩ => ?_, fun hc => absurd hc hact⟩, ?_⟩
    · intro e he
      rw [h] at he
      cases he
    · intro _ _
      refine ⟨autoRow s.payments (buildPayment payload).toPaymentRow now, items, ?_, ?_, ?_, hp⟩
      · unfold paymentWrite at h
        simp only [createPayment, h]
      · intro p hp2
        have := rowID_lt_nextID s.payments p hp2
        have hid : (autoRow s.payments (buildPayment payload).toPaymentRow now).ID =
            nextID s.payments := rfl
        have hp3 : rowID p = p.ID := rfl
        omega
      · simpa using congrArg List.length hs
    · rw [h] at he
      cases he
    · intro _ hne hf
      rcases h2 with h2 | h2
      · exact absurd h2 hne
      · exact absurd h2 hf

/-- Witness for `createPayment_all_or_nothing`: on the empty database, a payment
with two items whose items `INSERT` fails. -/
theorem createPayment_all_or_nothing_witness :
    (paymentWrite Store.empty
        ⟨⟨"Ann", "ann@example.com"⟩, [⟨1, "pen", F64.ofNat 10, 2⟩, ⟨2, "ink", F64.ofNat 5, 1⟩]⟩
        7 ⟨none, some "disk I/O error", none⟩).2 = Except.error "disk I/O error" ∧
    createPayment Store.empty
        (Except.ok ⟨⟨"Ann", "ann@example.com"⟩,
          [⟨1, "pen", F64.ofNat 10, 2⟩, ⟨2, "ink", F64.ofNat 5, 1⟩]⟩)
        7 ⟨none, some "disk I/O error", none⟩ =
      (Store.empty, ⟨500, Body.error "disk I/O error"⟩) :=
  ⟨rfl, (createPayment_all_or_nothing Store.empty _ 7 ⟨none, some "disk I/O error", none⟩).1
    "disk I/O error" rfl⟩

/-! ## Reading products -/

theorem ParseUint_ne_empty (str : String) (k : Nat) (h : ParseUint str = some k) : str ≠ "" := by
  intro hc
  subst hc
  simp [ParseUint, ParseUintRaw] at h

theorem dbFirst_ok {α : Type} [Row α] (tbl : List α) (id : Int) (fault : Option String) (r : α)
    (h : dbFirst tbl id fault = Except.ok r) :
    r ∈ tbl ∧ live r = true ∧ (rowID r : Int) = id := by
  unfold dbFirst at h
  cases fault with
  | some e => cases h
  | none =>
    simp only at h
    cases hf : tbl.find? (fun r => live r && decide ((rowID r : Int) = id)) with
    | none => rw [hf] at h; cases h
    | some q =>
      rw [hf] at h
      cases h
      have h1 := List.find?_some hf
      have h2 := List.mem_of_find?_eq_some hf
      simp only [Bool.and_eq_true, decide_eq_true_eq] at h1
      exact ⟨h2, h1.1, h1.2⟩

theorem dbFirst_of_mem {α : Type} [Row α] (tbl : List α) (id : Int) (r : α) (hr : r ∈ tbl)
    (hl : live r = true) (hid : (rowID r : Int) = id) :
    ∃ q, dbFirst tbl id none = Except.ok q := by
  unfold dbFirst
  cases hf : tbl.find? (fun r => live r && decide ((rowID r : Int) = id)) with
  | none =>
    have := List.find?_eq_none.mp hf r hr
    simp [hl, hid] at this
  | some q => exact ⟨q, rfl⟩

theorem dbFirst_error {α : Type} [Row α] (tbl : List α) (id : Int) (fault : Option String)
    (h : ∀ r ∈ tbl, ¬ (live r = true ∧ (rowID r : Int) = id)) :
    ∃ e, dbFirst tbl id fault = Except.error e := by
  unfold dbFirst
  cases fault with
  | some e => exact ⟨e, rfl⟩
  | none =>
    have hf : tbl.find? (fun r => live r && decide ((rowID r : Int) = id)) = none := by
      rw [List.find?_eq_none]
      intro r hr
      simpa using h r hr
    simp only [hf]
    exact ⟨_, rfl⟩

/-- C4.  For every store, every present `minPrice` that parses as the number
`m` and every `categoryID` that parses as the unsigned integer `k`,
`filterProducts` answers 200 with exactly the non-deleted products with
`price >= m` and `category_id = k`, in storage order (each with its category
preloaded); with only one of the two parameters present, exactly that one
predicate is applied.  (Storage is taken not to fail.) -/
theorem filterProducts_exact (ParseFloat : String → Option F64) (s : Store)
    (minPriceStr categoryIDStr : String) (m : F64) (k : Nat)
    (hpresent : minPriceStr ≠ "") (hm : ParseFloat minPriceStr = some m)
    (hk : ParseUint categoryIDStr = some k) :
    filterProducts ParseFloat s minPriceStr categoryIDStr none =
      ⟨200, Body.products ((s.products.filter (fun p =>
        p.DeletedAt.isNone && (F64.le m p.Price && decide (p.CategoryID = k)))).map
          (preloadCategory s))⟩ ∧
    (∀ p : ProductRow,
      p ∈ s.products.filter (fun p =>
        p.DeletedAt.isNone && (F64.le m p.Price && decide (p.CategoryID = k))) ↔
      p ∈ s.products ∧ p.DeletedAt = none ∧ F64.le m p.Price = true ∧ p.CategoryID = k) ∧
    filterProducts ParseFloat s minPriceStr "" none =
      ⟨200, Body.products ((s.products.filter (fun p =>
        p.DeletedAt.isNone && F64.le m p.Price)).map (preloadCategory s))⟩ ∧
    filterProducts ParseFloat s "" categoryIDStr none =
      ⟨200, Body.products ((s.products.filter (fun p =>
        p.DeletedAt.isNone && decide (p.CategoryID = k))).map (preloadCategory s))⟩ := by
  have hc : categoryIDStr ≠ "" := ParseUint_ne_empty _ _ hk
  refine ⟨?_, ?_, ?_, ?_⟩
  · simp only [filterProducts, hpresent, hc, hm, hk, ne_eq, not_false_eq_true, if_true,
      Query.Scopes, ScopeMinPrice, ScopeCategoryID, Query.Where, Query.Find, selectRows,
      StatusOK, List.nil_append, List.cons_append, List.all_cons, List.all_nil, Bool.and_true]
    rfl
  · intro p
    simp only [List.mem_filter, Bool.and_eq_true, decide_eq_true_eq, Option.isNone_iff_eq_none]
  · simp only [filterProducts, hpresent, hm, ne_eq, not_false_eq_true, if_true, not_true_eq_false,
      if_false, Query.Scopes, ScopeMinPrice, Query.Where, Query.Find, selectRows,
      StatusOK, List.nil_append, List.all_cons, List.all_nil, Bool.and_true]
    rfl
  · simp only [filterProducts, hc, hk, ne_eq, not_false_eq_true, if_true, not_true_eq_false,
      if_false, Query.Scopes, ScopeCategoryID, Query.Where, Query.Find, selectRows,
      StatusOK, List.nil_append, List.all_cons, List.all_nil, Bool.and_true]
    rfl

set_option maxRecDepth 100000 in
/-- Witness for `filterProducts_exact`: the query `minPrice=10&categoryID=2` on
`exampleStore` returns product 1 only (product 2 is cheaper, product 3 is of
category 3, product 4 is soft-deleted). -/
theorem filterProducts_exact_witness :
    digitsFloat "10" = some (F64.ofNat 10) ∧ ParseUint "2" = some 2 ∧
    filterProducts digitsFloat exampleStore "10" "2" none =
      ⟨200, Body.products ((exampleStore.products.filter (fun p =>
        p.DeletedAt.isNone && (F64.le (F64.ofNat 10) p.Price && decide (p.CategoryID = 2)))).map
          (preloadCategory exampleStore))⟩ ∧
    (exampleStore.products.filter (fun p =>
        p.DeletedAt.isNone && (F64.le (F64.ofNat 10) p.Price && decide (p.CategoryID = 2)))).map
          (fun p => p.ID) = [1] :=
  ⟨rfl, by decide,
    (filterProducts_exact digitsFloat exampleStore "10" "2" (F64.ofNat 10) 2 (by decide) rfl
      (by decide)).1, by decide⟩

/-- C5.  A malformed filter value is ignored, never rejected: a `minPrice` that
does not parse as a number, or a `categoryID` that does not parse as an unsigned
integer, gives the same response as the same call with that parameter absent;
with a non-numeric `minPrice` and no `categoryID` the response is that of
`getProducts`, status 200 when storage does not fail. -/
theorem filterProducts_malformed (ParseFloat : String → Option F64) (s : Store)
    (minPriceStr categoryIDStr other : String) (fault : Option String) :
    (ParseFloat minPriceStr = none →
      filterProducts ParseFloat s minPriceStr other fault =
        filterProducts ParseFloat s "" other fault) ∧
    (ParseUint categoryIDStr = none →
      filterProducts ParseFloat s other categoryIDStr fault =
        filterProducts ParseFloat s other "" fault) ∧
    (ParseFloat minPriceStr = none →
      filterProducts ParseFloat s minPriceStr "" fault = getProducts s fault ∧
      (filterProducts ParseFloat s minPriceStr "" none).status = 200) := by
  refine ⟨?_, ?_, ?_⟩
  · intro h
    by_cases hm : minPriceStr = ""
    · rw [hm]
    · simp only [filterProducts, h, hm, ne_eq, not_false_eq_true, if_true, not_true_eq_false,
        if_false]
  · intro h
    by_cases hc : categoryIDStr = ""
    · rw [hc]
    · simp only [filterProducts, h, hc, ne_eq, not_false_eq_true, if_true, not_true_eq_false,
        if_false]
  · intro h
    have hfg : filterProducts ParseFloat s minPriceStr "" fault = getProducts s fault := by
      by_cases hm : minPriceStr = ""
      · simp only [filterProducts, getProducts, hm, ne_eq, not_true_eq_false, if_false]
      · simp only [filterProducts, getProducts, h, hm, ne_eq, not_false_eq_true, if_true,
          not_true_eq_false, if_false]
    refine ⟨hfg, ?_⟩
    by_cases hm : minPriceStr = ""
    · simp only [filterProducts, hm, ne_eq, not_true_eq_false, if_false, Query.Find, StatusOK]
    · simp only [filterProducts, h, hm, ne_eq, not_false_eq_true, if_true,
        not_true_eq_false, if_false, Query.Find, StatusOK]

/-- Witness for `filterProducts_malformed`: `minPrice=cheap` on `exampleStore`
is answered as `getProducts` is. -/
theorem filterProducts_malformed_witness :
    digitsFloat "cheap" = none ∧
    filterProducts digitsFloat exampleStore "cheap" "" none = getProducts exampleStore none ∧
    (filterProducts digitsFloat exampleStore "cheap" "" none).status = 200 :=
  ⟨by decide,
    (filterProducts_malformed digitsFloat exampleStore "cheap" "" "" none).2.2 (by decide)⟩

/-! ## Deleting a product -/

theorem live_setModel {α : Type} [Row α] (m : Model) (r : α) :
    live (Row.setModel m r) = m.DeletedAt.isNone := by
  simp [live, Row.model_setModel]

theorem dbDelete_none_live {α : Type} [Row α] (tbl : List α) (v : α) (now : Time) :
    ∀ r ∈ tbl.map (fun r =>
        if rowID r = rowID v ∧ live r = true then
          Row.setModel { Row.model r with DeletedAt := some now } r
        else r),
      ¬ (live r = true ∧ rowID r = rowID v) := by
  intro r hr
  obtain ⟨x, _, rfl⟩ := List.mem_map.mp hr
  by_cases hx : rowID x = rowID v ∧ live x = true
  · simp only [hx, and_self, if_true, live_setModel, Option.isNone_some]
    simp
  · simp only [hx, if_false]
    tauto

/-- C7.  For every store and every id of an existing non-deleted product,
`deleteProduct` answers 204 with no body; after it `getProductByID` on that id
answers 404 "Product not found", and so does a second `deleteProduct`
(not 500), which leaves the store unchanged.  (Ids are assigned by
`AUTOINCREMENT`, hence not 0; the first delete meets no storage failure.) -/
theorem deleteProduct_then_not_found (s : Store) (idParam : String) (now now2 : Time)
    (p : ProductRow) (hmem : p ∈ s.products) (hlive : p.DeletedAt = none)
    (hparam : Atoi idParam = (p.ID : Int)) (hpos : p.ID ≠ 0) :
    (deleteProduct s idParam now none none).2 = ⟨204, Body.noContent⟩ ∧
    (∀ fault, getProductByID (deleteProduct s idParam now none none).1 idParam fault =
      ⟨404, Body.message "Product not found"⟩) ∧
    (∀ f1 f2, deleteProduct (deleteProduct s idParam now none none).1 idParam now2 f1 f2 =
      ((deleteProduct s idParam now none none).1, ⟨404, Body.message "Product not found"⟩)) := by
  obtain ⟨q, hq⟩ := dbFirst_of_mem s.products (Atoi idParam) p hmem
    (by simp [live, Row.model, hlive]) (by rw [hparam]; rfl)
  obtain ⟨_, _, hqid⟩ := dbFirst_ok _ _ _ _ hq
  have hqp : rowID q = p.ID := by
    rw [hparam] at hqid
    exact_mod_cast hqid
  have hq0 : ¬ rowID q = 0 := by rw [hqp]; exact hpos
  have hdel : deleteProduct s idParam now none none =
      ({ s with products := s.products.map (fun r =>
          if rowID r = rowID q ∧ live r = true then
            Row.setModel { Row.model r with DeletedAt := some now } r
          else r) }, ⟨204, Body.noContent⟩) := by
    simp only [deleteProduct, hq, dbDelete, hq0, if_false, StatusNoContent]
  have hnone : ∀ fault, ∃ e, dbFirst (deleteProduct s idParam now none none).1.products
      (Atoi idParam) fault = Except.error e := by
    intro fault
    apply dbFirst_error
    intro r hr hc
    rw [hdel] at hr
    refine dbDelete_none_live s.products q now r hr ⟨hc.1, ?_⟩
    have := hc.2
    rw [hparam] at this
    rw [hqp]
    exact_mod_cast this
  refine ⟨by rw [hdel], ?_, ?_⟩
  · intro fault
    obtain ⟨e, he⟩ := hnone fault
    generalize (deleteProduct s idParam now none none).1 = s1 at he ⊢
    simp only [getProductByID, he, StatusNotFound, ProductNotFoundStr]
  · intro f1 f2
    obtain ⟨e, he⟩ := hnone f1
    generalize (deleteProduct s idParam now none none).1 = s1 at he ⊢
    simp only [deleteProduct, he, StatusNotFound, ProductNotFoundStr]

/-- Witness for `deleteProduct_then_not_found`: product 1 of `exampleStore`,
addressed by the path parameter `1`. -/
theorem deleteProduct_then_not_found_witness :
    (deleteProduct exampleStore "1" 9 none none).2 = ⟨204, Body.noContent⟩ ∧
    (∀ fault, getProductByID (deleteProduct exampleStore "1" 9 none none).1 "1" fault =
      ⟨404, Body.message "Product not found"⟩) ∧
    (∀ f1 f2, deleteProduct (deleteProduct exampleStore "1" 9 none none).1 "1" 10 f1 f2 =
      ((deleteProduct exampleStore "1" 9 none none).1,
        ⟨404, Body.message "Product not found"⟩)) :=
  deleteProduct_then_not_found exampleStore "1" 9 10
    ⟨⟨1, 2, 2, none⟩, "Go Guide", F64.ofNat 30, 2⟩
    (List.mem_cons_self _ _) rfl (by decide) (by decide)

/-! ## Updating a product -/

/-- What `Save` does to the table when the bound record keeps the key of a
non-deleted row: every non-deleted row with that key is overwritten. -/
theorem dbSave_live {α : Type} [Row α] (tbl : List α) (v x : α) (now : Time)
    (hx : x ∈ tbl) (hl : live x = true) (hid : rowID x = rowID v) (h0 : rowID v ≠ 0) :
    dbSave tbl v now none =
      Except.ok (tbl.map (fun r =>
        if rowID r = rowID v ∧ live r = true then
          Row.setModel { Row.model v with UpdatedAt := now } v
        else r), Row.setModel { Row.model v with UpdatedAt := now } v) := by
  have hany : tbl.any (fun r => decide (rowID r = rowID v) && live r) = true := by
    rw [List.any_eq_true]
    exact ⟨x, hx, by simp [hid, hl]⟩
  simp only [dbSave, h0, if_false, hany, if_true]

/-- Looking up a key after the non-deleted rows with that key were overwritten
by a non-deleted row with the same key. -/
theorem find_after_overwrite {α : Type} [Row α] (tbl : List α) (v1 : α) (k : Nat) (id : Int)
    (hk : (k : Int) = id) (h1 : rowID v1 = k) (h2 : live v1 = true) :
    (tbl.map (fun r => if rowID r = k ∧ live r = true then v1 else r)).find?
        (fun r => live r && decide ((rowID r : Int) = id)) =
      (tbl.find? (fun r => live r && decide ((rowID r : Int) = id))).map
        (fun r => if rowID r = k ∧ live r = true then v1 else r) := by
  have hp1 : (live v1 && decide ((rowID v1 : Int) = id)) = true := by simp [h1, h2, hk]
  induction tbl with
  | nil => rfl
  | cons x xs ih =>
    simp only [List.map_cons, List.find?_cons]
    by_cases hx : rowID x = k ∧ live x = true
    · have hp : (live x && decide ((rowID x : Int) = id)) = true := by simp [hx.1, hx.2, hk]
      simp only [if_pos hx, hp, hp1, Option.map_some']
    · simp only [if_neg hx]
      cases hpx : (live x && decide ((rowID x : Int) = id)) with
      | true => simp only [Option.map_some', if_neg hx]
      | false => exact ih

set_option maxRecDepth 100000 in
/-- C10.  `updateProduct` writes to the key the bound record carries, which
the body can replace: on `exampleStore`,
`PUT /products/1` with the body `{"ID": 2, "name": "Hijacked"}` answers 200 with
a product whose id is 2, leaves row 1 as it was and overwrites row 2 with the
loaded columns of product 1 and the new name; with the body `{"ID": 7}` it
inserts a new row 7. -/
theorem updateProduct_body_key_overrides_path :
    exampleStore.products.map (fun p => (p.ID, p.Name, p.CategoryID)) =
      [(1, "Go Guide", 2), (2, "Leaflet", 2), (3, "Chess", 3), (4, "Atlas", 2)] ∧
    updateProduct exampleStore "1"
        (Except.ok ⟨⟨some 2, none, none, none⟩, some "Hijacked", none, none, none⟩) 9 none none =
      ({ exampleStore with
          products :=
            [⟨⟨1, 2, 2, none⟩, "Go Guide", F64.ofNat 30, 2⟩,
             ⟨⟨2, 2, 9, none⟩, "Hijacked", F64.ofNat 30, 2⟩,
             ⟨⟨3, 4, 4, none⟩, "Chess", F64.ofNat 40, 3⟩,
             ⟨⟨4, 5, 6, some 6⟩, "Atlas", F64.ofNat 50, 2⟩] },
        ⟨200, Body.product (ProductRow.bare ⟨⟨2, 2, 9, none⟩, "Hijacked", F64.ofNat 30, 2⟩)⟩) ∧
    (updateProduct exampleStore "1"
        (Except.ok ⟨⟨some 7, none, none, none⟩, none, none, none, none⟩) 9 none none).1.products.map
          (fun p => (p.ID, p.Name, p.CategoryID)) =
      [(1, "Go Guide", 2), (2, "Leaflet", 2), (3, "Chess", 3), (4, "Atlas", 2),
        (7, "Go Guide", 2)] := by
  refine ⟨by decide, by rfl, by decide⟩

/-! ## Rows are never removed -/

section Keeps

variable {α : Type} [Row α]

theorem keepsRows_refl (tbl : List α) : keepsRows tbl tbl :=
  fun x hx => ⟨x, hx, rfl⟩

theorem Store.keeps_refl (s : Store) : s.keeps s :=
  ⟨keepsRows_refl _, keepsRows_refl _, keepsRows_refl _, keepsRows_refl _, keepsRows_refl _⟩

theorem mem_insertRow (r x : α) (tbl : List α) : x ∈ insertRow r tbl ↔ x = r ∨ x ∈ tbl := by
  induction tbl with
  | nil => simp [insertRow]
  | cons y ys ih =>
    unfold insertRow
    split
    · simp
    · simp only [List.mem_cons, ih]
      tauto

theorem keepsRows_insertRow (r : α) (tbl : List α) : keepsRows tbl (insertRow r tbl) :=
  fun x hx => ⟨x, (mem_insertRow r x tbl).mpr (Or.inr hx), rfl⟩

theorem keepsRows_append (tbl extra : List α) : keepsRows tbl (tbl ++ extra) :=
  fun x hx => ⟨x, List.mem_append_left _ hx, rfl⟩

theorem keepsRows_map (tbl : List α) (f : α → α) (hf : ∀ r ∈ tbl, rowID (f r) = rowID r) :
    keepsRows tbl (tbl.map f) :=
  fun x hx => ⟨f x, List.mem_map_of_mem f hx, hf x hx⟩

theorem dbCreate_keeps (tbl tbl1 : List α) (v v1 : α) (now : Time) (fault : Option String)
    (h : dbCreate tbl v now fault = Except.ok (tbl1, v1)) : keepsRows tbl tbl1 := by
  unfold dbCreate at h
  cases fault with
  | some e => cases h
  | none =>
    simp only at h
    split at h
    · cases h; exact keepsRows_insertRow _ _
    · split at h
      · cases h
      · cases h; exact keepsRows_insertRow _ _

theorem dbSave_keeps (tbl tbl1 : List α) (v v1 : α) (now : Time) (fault : Option String)
    (h : dbSave tbl v now fault = Except.ok (tbl1, v1)) : keepsRows tbl tbl1 := by
  unfold dbSave at h
  split at h
  · exact dbCreate_keeps _ _ _ _ _ _ h
  · cases fault with
    | some e => cases h
    | none =>
      simp only at h
      split at h
      · cases h
        apply keepsRows_map
        intro r _
        by_cases hr : rowID r = rowID v ∧ live r = true
        · rw [if_pos hr, rowID_setModel]
          exact hr.1.symm
        · rw [if_neg hr]
      · split at h
        · cases h
          apply keepsRows_map
          intro r _
          by_cases hr : rowID r = rowID v
          · rw [if_pos hr, rowID_setModel]
            simp only [Row.model_setModel]
            exact hr.symm
          · rw [if_neg hr]
        · cases h; exact keepsRows_insertRow _ _

theorem dbDelete_keeps (tbl tbl1 : List α) (v : α) (now : Time) (fault : Option String)
    (h : dbDelete tbl v now fault = Except.ok tbl1) : keepsRows tbl tbl1 := by
  unfold dbDelete at h
  cases fault with
  | some e => cases h
  | none =>
    simp only at h
    split at h
    · cases h
    · cases h
      apply keepsRows_map
      intro r _
      by_cases hr : rowID r = rowID v ∧ live r = true
      · rw [if_pos hr, rowID_setModel]
        rfl
      · rw [if_neg hr]

end Keeps

/-- What the save of the category association leaves alone: every table but
`categories`, which loses no row, and every column of the product but
`CategoryID`. -/
theorem saveBelongsTo_frame (s : Store) (p : Product) (now : Time) :
    (saveBelongsTo s p now).1.products = s.products ∧
    (saveBelongsTo s p now).1.carts = s.carts ∧
    (saveBelongsTo s p now).1.payments = s.payments ∧
    (saveBelongsTo s p now).1.paymentItems = s.paymentItems ∧
    keepsRows s.categories (saveBelongsTo s p now).1.categories ∧
    (saveBelongsTo s p now).2.toModel = p.toModel ∧
    (saveBelongsTo s p now).2.Name = p.Name ∧
    (saveBelongsTo s p now).2.Price = p.Price := by
  unfold saveBelongsTo
  split
  · exact ⟨rfl, rfl, rfl, rfl, keepsRows_refl _, rfl, rfl, rfl⟩
  · refine ⟨rfl, rfl, rfl, rfl, ?_, rfl, rfl, rfl⟩
    unfold dbCreateDoNothing
    simp only
    split
    · exact keepsRows_insertRow _ _
    · split
      · exact keepsRows_refl _
      · exact keepsRows_insertRow _ _

/-- What `DB.Create(&product)` writes: the categories lose no row, the products
are those `Create` leaves on the product row, and no other table changes. -/
theorem dbCreateProduct_frame (s s1 : Store) (p p1 : Product) (now : Time)
    (fault : Option String) (h : dbCreateProduct s p now fault = Except.ok (s1, p1)) :
    keepsRows s.categories s1.categories ∧
    (∃ v, dbCreate s.products v now none = Except.ok (s1.products, p1.toProductRow)) ∧
    s1.carts = s.carts ∧ s1.payments = s.payments ∧ s1.paymentItems = s.paymentItems := by
  obtain ⟨hf1, hf2, hf3, hf4, hf5, _, _, _⟩ := saveBelongsTo_frame s p now
  unfold dbCreateProduct at h
  cases fault with
  | some e => cases h
  | none =>
    simp only at h
    split at h
    · cases h
    · next tbl row hc =>
      cases h
      rw [hf1] at hc
      exact ⟨hf5, ⟨_, hc⟩, hf2, hf3, hf4⟩

/-- What `DB.Save(&product)` writes: the categories lose no row, the products
are those `Save` leaves on the product row, and no other table changes. -/
theorem dbSaveProduct_frame (s s1 : Store) (p p1 : Product) (now : Time)
    (fault : Option String) (h : dbSaveProduct s p now fault = Except.ok (s1, p1)) :
    keepsRows s.categories s1.categories ∧
    (∃ v, dbSave s.products v now none = Except.ok (s1.products, p1.toProductRow)) ∧
    s1.carts = s.carts ∧ s1.payments = s.payments ∧ s1.paymentItems = s.paymentItems := by
  obtain ⟨hf1, hf2, hf3, hf4, hf5, _, _, _⟩ := saveBelongsTo_frame s p now
  unfold dbSaveProduct at h
  cases fault with
  | some e => cases h
  | none =>
    simp only at h
    split at h
    · cases h
    · next tbl row hc =>
      cases h
      rw [hf1] at hc
      exact ⟨hf5, ⟨_, hc⟩, hf2, hf3, hf4⟩

theorem createProduct_keeps (s : Store) (body : Except String ProductBody) (now : Time)
    (fault : Option String) : s.keeps (createProduct s body now fault).1 := by
  unfold createProduct
  split
  · exact s.keeps_refl
  · simp only
    split
    · exact s.keeps_refl
    · next h =>
      obtain ⟨h1, ⟨v, h2⟩, h3, h4, h5⟩ := dbCreateProduct_frame _ _ _ _ _ _ h
      refine ⟨h1, dbCreate_keeps _ _ _ _ _ _ h2, ?_, ?_, ?_⟩
      · simp only [h3]; exact keepsRows_refl _
      · simp only [h4]; exact keepsRows_refl _
      · simp only [h5]; exact keepsRows_refl _

theorem createCart_keeps (s : Store) (body : Except String CartBody) (now : Time)
    (fault : Option String) : s.keeps (createCart s body now fault).1 := by
  unfold createCart
  split
  · exact s.keeps_refl
  · simp only
    split
    · exact s.keeps_refl
    · next h =>
      exact ⟨keepsRows_refl _, keepsRows_refl _, dbCreate_keeps _ _ _ _ _ _ h, keepsRows_refl _,
        keepsRows_refl _⟩

theorem createCategory_keeps (s : Store) (body : Except String CategoryBody) (now : Time)
    (fault : Option String) : s.keeps (createCategory s body now fault).1 := by
  unfold createCategory
  split
  · exact s.keeps_refl
  · simp only
    split
    · exact s.keeps_refl
    · next h =>
      exact ⟨dbCreate_keeps _ _ _ _ _ _ h, keepsRows_refl _, keepsRows_refl _, keepsRows_refl _,
        keepsRows_refl _⟩

theorem updateProduct_keeps (s : Store) (idParam : String) (body : Except String ProductBody)
    (now : Time) (f1 f2 : Option String) : s.keeps (updateProduct s idParam body now f1 f2).1 := by
  unfold updateProduct
  simp only
  split
  · exact s.keeps_refl
  · split
    · exact s.keeps_refl
    · split
      · exact s.keeps_refl
      · next h =>
        obtain ⟨h1, ⟨v, h2⟩, h3, h4, h5⟩ := dbSaveProduct_frame _ _ _ _ _ _ h
        refine ⟨h1, dbSave_keeps _ _ _ _ _ _ h2, ?_, ?_, ?_⟩
        · simp only [h3]; exact keepsRows_refl _
        · simp only [h4]; exact keepsRows_refl _
        · simp only [h5]; exact keepsRows_refl _

theorem deleteProduct_keeps (s : Store) (idParam : String) (now : Time)
    (f1 f2 : Option String) : s.keeps (deleteProduct s idParam now f1 f2).1 := by
  unfold deleteProduct
  simp only
  split
  · exact s.keeps_refl
  · split
    · exact s.keeps_refl
    · next h =>
      exact ⟨keepsRows_refl _, dbDelete_keeps _ _ _ _ _ h, keepsRows_refl _, keepsRows_refl _,
        keepsRows_refl _⟩

/-- What `createPayment` leaves in the store, whatever the storage does: the
store as it was, or the store with one payment row and the item rows of
`paymentWrite_ok` appended. -/
theorem createPayment_store (s : Store) (body : Except String Payload) (now : Time)
    (fault : TxFault) :
    (createPayment s body now fault).1 = s ∨
    ∃ (payload : Payload) (items : List PaymentItem),
      body = Except.ok payload ∧
      (createPayment s body now fault).1 =
        { s with
            payments := s.payments ++ [autoRow s.payments (buildPayment payload).toPaymentRow now],
            paymentItems := s.paymentItems ++ items } ∧
      items.map PaymentItem.snapshot = payload.Items.map PayloadItem.snapshot ∧
      (∀ it ∈ items, it.PaymentID = nextID s.payments) := by
  cases body with
  | error e => left; rfl
  | ok payload =>
    by_cases hact : fault.insertPayment ≠ none ∨
        (payload.Items ≠ [] ∧ fault.insertItems ≠ none) ∨ fault.commit ≠ none
    · left
      obtain ⟨e, he⟩ := paymentWrite_fault s payload now fault hact
      unfold paymentWrite at he
      simp only [createPayment, he]
    · right
      have h1 : fault.insertPayment = none := by
        by_contra h; exact hact (Or.inl h)
      have h2 : payload.Items = [] ∨ fault.insertItems = none := by
        by_contra h
        push_neg at h
        exact hact (Or.inr (Or.inl h))
      have h3 : fault.commit = none := by
        by_contra h; exact hact (Or.inr (Or.inr h))
      obtain ⟨items, h, hs, hp⟩ := paymentWrite_ok s payload now fault h1 h2 h3
      refine ⟨payload, items, rfl, ?_, hs, hp⟩
      unfold paymentWrite at h
      simp only [createPayment, h]

theorem createPayment_keeps (s : Store) (body : Except String Payload) (now : Time)
    (fault : TxFault) : s.keeps (createPayment s body now fault).1 := by
  rcases createPayment_store s body now fault with h | ⟨payload, items, _, h, _, _⟩
  · rw [h]; exact s.keeps_refl
  · rw [h]
    exact ⟨keepsRows_refl _, keepsRows_refl _, keepsRows_refl _, keepsRows_append _ _,
      keepsRows_append _ _⟩

theorem handle_keeps (ParseFloat : String → Option F64) (s : Store) (r : Request) :
    s.keeps (handle ParseFloat s r).1 := by
  cases r with
  | getProducts fault => exact s.keeps_refl
  | getProductByID id fault => exact s.keeps_refl
  | createProduct body now fault => exact createProduct_keeps s body now fault
  | updateProduct id body now f1 f2 => exact updateProduct_keeps s id body now f1 f2
  | deleteProduct id now f1 f2 => exact deleteProduct_keeps s id now f1 f2
  | filterProducts a b fault => exact s.keeps_refl
  | getCarts fault => exact s.keeps_refl
  | createCart body now fault => exact createCart_keeps s body now fault
  | getCategories fault => exact s.keeps_refl
  | getCategoryByID id fault => exact s.keeps_refl
  | createCategory body now fault => exact createCategory_keeps s body now fault
  | createPayment body now fault => exact createPayment_keeps s body now fault

/-! ## Soft-deleted rows are not read -/

theorem selectRows_mem {α : Type} [Row α] (tbl : List α) (conds : List (α → Bool)) (x : α)
    (hx : x ∈ selectRows tbl conds) : x ∈ tbl ∧ live x = true := by
  unfold selectRows at hx
  rw [List.mem_filter, Bool.and_eq_true] at hx
  exact ⟨hx.1, hx.2.1⟩

theorem ProductRow.live_iff (p : ProductRow) : live p = true ↔ p.DeletedAt = none := by
  show p.toModel.DeletedAt.isNone = true ↔ _
  exact Option.isNone_iff_eq_none

theorem getProducts_live (s : Store) (fault : Option String) (st : Nat) (ps : List Product)
    (h : getProducts s fault = ⟨st, Body.products ps⟩) :
    ∀ p ∈ ps, p.toProductRow ∈ s.products ∧ p.DeletedAt = none := by
  unfold getProducts Query.Find at h
  cases fault with
  | some e => simp at h
  | none =>
    simp only [Response.mk.injEq, Body.products.injEq] at h
    obtain ⟨_, rfl⟩ := h
    intro p hp
    obtain ⟨x, hx, rfl⟩ := List.mem_map.mp hp
    obtain ⟨h1, h2⟩ := selectRows_mem _ _ _ hx
    exact ⟨h1, (ProductRow.live_iff x).mp h2⟩

theorem getProductByID_live (s : Store) (idParam : String) (fault : Option String) (st : Nat)
    (p : Product) (h : getProductByID s idParam fault = ⟨st, Body.product p⟩) :
    p.toProductRow ∈ s.products ∧ p.DeletedAt = none := by
  unfold getProductByID at h
  simp only at h
  split at h
  · simp at h
  · next q hq =>
    simp only [Response.mk.injEq, Body.product.injEq] at h
    obtain ⟨_, rfl⟩ := h
    obtain ⟨h1, h2, _⟩ := dbFirst_ok _ _ _ _ hq
    exact ⟨h1, (ProductRow.live_iff q).mp h2⟩

/-- Whatever its parameters, `filterProducts` runs one `Find` on `products`. -/
theorem filterProducts_eq (ParseFloat : String → Option F64) (s : Store) (a b : String) :
    ∃ conds : List (ProductRow → Bool), ∀ fault,
      filterProducts ParseFloat s a b fault =
        match fault with
        | some e => ⟨500, Body.error e⟩
        | none => ⟨200, Body.products ((selectRows s.products conds).map (preloadCategory s))⟩ := by
  by_cases ha : a = "" <;> by_cases hb : b = "" <;> cases hpa : ParseFloat a <;>
    cases hpb : ParseUint b <;>
    simp only [filterProducts, ha, hb, hpa, hpb, ne_eq, not_true_eq_false, not_false_eq_true,
      if_true, if_false, Query.Find, Query.Scopes, StatusOK, StatusInternalServerError] <;>
    exact ⟨_, fun fault => by cases fault <;> rfl⟩

theorem filterProducts_live (ParseFloat : String → Option F64) (s : Store) (a b : String)
    (fault : Option String) (st : Nat) (ps : List Product)
    (h : filterProducts ParseFloat s a b fault = ⟨st, Body.products ps⟩) :
    ∀ p ∈ ps, p.toProductRow ∈ s.products ∧ p.DeletedAt = none := by
  obtain ⟨conds, hc⟩ := filterProducts_eq ParseFloat s a b
  rw [hc fault] at h
  cases fault with
  | some e => simp at h
  | none =>
    simp only [Response.mk.injEq, Body.products.injEq] at h
    obtain ⟨_, rfl⟩ := h
    intro p hp
    obtain ⟨x, hx, rfl⟩ := List.mem_map.mp hp
    obtain ⟨h1, h2⟩ := selectRows_mem _ _ _ hx
    exact ⟨h1, (ProductRow.live_iff x).mp h2⟩

theorem preloadProducts_live (s : Store) (c : CategoryRow) :
    ∀ p ∈ (preloadProducts s c).Products, p ∈ s.products ∧ p.DeletedAt = none := by
  intro p hp
  unfold preloadProducts at hp
  simp only at hp
  split at hp
  · cases hp
  · obtain ⟨h1, h2⟩ := selectRows_mem _ _ _ hp
    exact ⟨h1, (ProductRow.live_iff p).mp h2⟩

theorem getCategories_live (s : Store) (fault : Option String) (st : Nat) (cs : List Category)
    (h : getCategories s fault = ⟨st, Body.categories cs⟩) :
    ∀ c ∈ cs, ∀ p ∈ c.Products, p ∈ s.products ∧ p.DeletedAt = none := by
  unfold getCategories Query.Find at h
  cases fault with
  | some e => simp at h
  | none =>
    simp only [Response.mk.injEq, Body.categories.injEq] at h
    obtain ⟨_, rfl⟩ := h
    intro c hc
    obtain ⟨x, _, rfl⟩ := List.mem_map.mp hc
    exact preloadProducts_live s x

theorem getCategoryByID_live (s : Store) (idParam : String) (fault : Option String) (st : Nat)
    (c : Category) (h : getCategoryByID s idParam fault = ⟨st, Body.category c⟩) :
    ∀ p ∈ c.Products, p ∈ s.products ∧ p.DeletedAt = none := by
  unfold getCategoryByID at h
  simp only at h
  split at h
  · simp at h
  · next q hq =>
    simp only [Response.mk.injEq, Body.category.injEq] at h
    obtain ⟨_, rfl⟩ := h
    exact preloadProducts_live s q

/-- What `deleteProduct` does to the store: nothing, or it sets `DeletedAt` on
the non-deleted product rows whose key is the path id. -/
theorem deleteProduct_store (s : Store) (idParam : String) (now : Time) (f1 f2 : Option String) :
    (deleteProduct s idParam now f1 f2).1 = s ∨
    (deleteProduct s idParam now f1 f2).1 =
      { s with products := s.products.map (fun x =>
          if (x.ID : Int) = Atoi idParam ∧ x.DeletedAt = none then
            { x with DeletedAt := some now }
          else x) } := by
  unfold deleteProduct
  simp only
  split
  · left; rfl
  · next q hq =>
    obtain ⟨_, _, hid⟩ := dbFirst_ok _ _ _ _ hq
    split
    · left; rfl
    · next tbl h =>
      right
      unfold dbDelete at h
      cases f2 with
      | some e => cases h
      | none =>
        simp only at h
        split at h
        · cases h
        · cases h
          simp only
          congr 1
          apply List.map_congr_left
          intro x _
          have hx : (rowID x = rowID q ∧ live x = true) ↔
              ((x.ID : Int) = Atoi idParam ∧ x.DeletedAt = none) := by
            rw [ProductRow.live_iff, ← hid]
            constructor
            · rintro ⟨h1, h2⟩
              exact ⟨by exact_mod_cast h1, h2⟩
            · rintro ⟨h1, h2⟩
              exact ⟨by exact_mod_cast h1, h2⟩
          by_cases hc : rowID x = rowID q ∧ live x = true
          · rw [if_pos hc, if_pos (hx.mp hc)]
            rfl
          · rw [if_neg hc, if_neg (fun h => hc (hx.mpr h))]

/-- C8.  No exposed operation hard-deletes a row: after any handler call, every
row of every table (by primary key) is still there.  `deleteProduct` changes
nothing but the soft-delete marker of the non-deleted product rows addressed by
the path id.  And a soft-deleted product is excluded from `getProducts`,
`getProductByID`, `filterProducts` and from the `Products` collections returned
by `getCategories` and `getCategoryByID`: every product these return is a row
of the store whose `DeletedAt` is not set. -/
theorem no_hard_delete (ParseFloat : String → Option F64) (s : Store) :
    (∀ r : Request, s.keeps (handle ParseFloat s r).1) ∧
    (∀ (idParam : String) (now : Time) (f1 f2 : Option String),
      (deleteProduct s idParam now f1 f2).1 = s ∨
      (deleteProduct s idParam now f1 f2).1 =
        { s with products := s.products.map (fun x =>
            if (x.ID : Int) = Atoi idParam ∧ x.DeletedAt = none then
              { x with DeletedAt := some now }
            else x) }) ∧
    (∀ fault st ps, getProducts s fault = ⟨st, Body.products ps⟩ →
      ∀ p ∈ ps, p.toProductRow ∈ s.products ∧ p.DeletedAt = none) ∧
    (∀ idParam fault st p, getProductByID s idParam fault = ⟨st, Body.product p⟩ →
      p.toProductRow ∈ s.products ∧ p.DeletedAt = none) ∧
    (∀ minPrice categoryID fault st ps,
      filterProducts ParseFloat s minPrice categoryID fault = ⟨st, Body.products ps⟩ →
      ∀ p ∈ ps, p.toProductRow ∈ s.products ∧ p.DeletedAt = none) ∧
    (∀ fault st cs, getCategories s fault = ⟨st, Body.categories cs⟩ →
      ∀ c ∈ cs, ∀ p ∈ c.Products, p ∈ s.products ∧ p.DeletedAt = none) ∧
    (∀ idParam fault st c, getCategoryByID s idParam fault = ⟨st, Body.category c⟩ →
      ∀ p ∈ c.Products, p ∈ s.products ∧ p.DeletedAt = none) :=
  ⟨handle_keeps ParseFloat s, deleteProduct_store s, getProducts_live s, getProductByID_live s,
    filterProducts_live ParseFloat s, getCategories_live s, getCategoryByID_live s⟩

/-- Witness for `no_hard_delete`: `DELETE /products/1` on `exampleStore` keeps
the four product rows and sets the marker of row 1 only; `getProducts` on
`exampleStore` leaves out the soft-deleted row 4. -/
theorem no_hard_delete_witness :
    exampleStore.keeps (handle digitsFloat exampleStore (Request.deleteProduct "1" 9 none none)).1 ∧
    (deleteProduct exampleStore "1" 9 none none).1.products.map (fun p => (p.ID, p.DeletedAt)) =
      [(1, some 9), (2, none), (3, none), (4, some 6)] ∧
    (∀ ps, getProducts exampleStore none = ⟨200, Body.products ps⟩ →
      ∀ p ∈ ps, p.toProductRow ∈ exampleStore.products ∧ p.DeletedAt = none) :=
  ⟨(no_hard_delete digitsFloat exampleStore).1 _, by decide,
    fun ps => (no_hard_delete digitsFloat exampleStore).2.2.1 none 200 ps⟩

/-! ## The total of a stored payment -/

theorem itemsSum_eq_paymentTotal (rows : List PaymentItem) (items : List PayloadItem)
    (h : rows.map PaymentItem.snapshot = items.map PayloadItem.snapshot) :
    itemsSum rows = paymentTotal items := by
  have h1 : itemsSum rows = (rows.map PaymentItem.snapshot).foldl
      (fun acc t => acc + t.2.2.1 * F64.ofNat t.2.2.2) F64.zero := by
    unfold itemsSum
    rw [List.foldl_map]
    rfl
  have h2 : paymentTotal items = (items.map PayloadItem.snapshot).foldl
      (fun acc t => acc + t.2.2.1 * F64.ofNat t.2.2.2) F64.zero := by
    unfold paymentTotal
    rw [List.foldl_map]
    rfl
  rw [h1, h2, h]

/-- The invariant of the payment tables: every payment's total is the sum over
the item rows that reference it, and every item row references a payment. -/
theorem payment_invariant_step (s : Store) (body : Except String Payload) (now : Time)
    (fault : TxFault)
    (htotal : ∀ pay ∈ s.payments, pay.Total = itemsSum (itemsOf s pay.ID))
    (href : ∀ it ∈ s.paymentItems, ∃ pay ∈ s.payments, pay.ID = it.PaymentID) :
    (∀ pay ∈ (createPayment s body now fault).1.payments,
      pay.Total = itemsSum (itemsOf (createPayment s body now fault).1 pay.ID)) ∧
    (∀ it ∈ (createPayment s body now fault).1.paymentItems,
      ∃ pay ∈ (createPayment s body now fault).1.payments, pay.ID = it.PaymentID) := by
  rcases createPayment_store s body now fault with h | ⟨payload, items, _, h, hsnap, hpid⟩
  · rw [h]; exact ⟨htotal, href⟩
  · rw [h]
    have hrowid : (autoRow s.payments (buildPayment payload).toPaymentRow now).ID =
        nextID s.payments := rfl
    have hold : ∀ pay ∈ s.payments, pay.ID ≠ nextID s.payments := by
      intro pay hp
      have := rowID_lt_nextID s.payments pay hp
      have e : rowID pay = pay.ID := rfl
      omega
    have hnew_none : ∀ id, id ≠ nextID s.payments →
        items.filter (fun it => decide (it.PaymentID = id)) = [] := by
      intro id hid
      rw [List.filter_eq_nil_iff]
      intro it hit
      simp only [decide_eq_true_eq]
      rw [hpid it hit]
      exact fun hc => hid hc.symm
    have hnew_all : items.filter (fun it => decide (it.PaymentID = nextID s.payments)) = items := by
      rw [List.filter_eq_self]
      intro it hit
      simp only [decide_eq_true_eq]
      exact hpid it hit
    have hold_none : s.paymentItems.filter (fun it => decide (it.PaymentID = nextID s.payments))
        = [] := by
      rw [List.filter_eq_nil_iff]
      intro it hit
      simp only [decide_eq_true_eq]
      obtain ⟨pay, hp, hpe⟩ := href it hit
      rw [← hpe]
      exact hold pay hp
    constructor
    · intro pay hp
      simp only [List.mem_append, List.mem_singleton] at hp
      simp only [itemsOf, List.filter_append]
      rcases hp with hp | hp
      · rw [hnew_none pay.ID (hold pay hp), List.append_nil]
        exact htotal pay hp
      · subst hp
        rw [hrowid, hold_none, hnew_all, List.nil_append]
        exact (itemsSum_eq_paymentTotal items payload.Items hsnap).symm
    · intro it hit
      simp only [List.mem_append] at hit
      rcases hit with hit | hit
      · obtain ⟨pay, hp, hpe⟩ := href it hit
        exact ⟨pay, List.mem_append_left _ hp, hpe⟩
      · exact ⟨_, List.mem_append_right _ (List.mem_singleton_self _), (hpid it hit).symm⟩

/-- Every handler but `createPayment` leaves the tables `payments` and
`payment_items` as they are. -/
theorem handle_payments_unchanged (ParseFloat : String → Option F64) (s : Store) (r : Request)
    (hr : r.isCreatePayment = false) :
    (handle ParseFloat s r).1.payments = s.payments ∧
    (handle ParseFloat s r).1.paymentItems = s.paymentItems := by
  cases r with
  | getProducts fault => exact ⟨rfl, rfl⟩
  | getProductByID id fault => exact ⟨rfl, rfl⟩
  | createProduct body now fault =>
    simp only [handle, createProduct]
    split
    · exact ⟨rfl, rfl⟩
    · split
      · exact ⟨rfl, rfl⟩
      · next h =>
        obtain ⟨_, _, _, h4, h5⟩ := dbCreateProduct_frame _ _ _ _ _ _ h
        exact ⟨h4, h5⟩
  | updateProduct id body now f1 f2 =>
    simp only [handle, updateProduct]
    split
    · exact ⟨rfl, rfl⟩
    · split
      · exact ⟨rfl, rfl⟩
      · split
        · exact ⟨rfl, rfl⟩
        · next h =>
          obtain ⟨_, _, _, h4, h5⟩ := dbSaveProduct_frame _ _ _ _ _ _ h
          exact ⟨h4, h5⟩
  | deleteProduct id now f1 f2 =>
    simp only [handle, deleteProduct]
    split
    · exact ⟨rfl, rfl⟩
    · split <;> exact ⟨rfl, rfl⟩
  | filterProducts a b fault => exact ⟨rfl, rfl⟩
  | getCarts fault => exact ⟨rfl, rfl⟩
  | createCart body now fault =>
    simp only [handle, createCart]
    split
    · exact ⟨rfl, rfl⟩
    · split <;> exact ⟨rfl, rfl⟩
  | getCategories fault => exact ⟨rfl, rfl⟩
  | getCategoryByID id fault => exact ⟨rfl, rfl⟩
  | createCategory body now fault =>
    simp only [handle, createCategory]
    split
    · exact ⟨rfl, rfl⟩
    · split <;> exact ⟨rfl, rfl⟩
  | createPayment body now fault => cases hr

theorem reachable_payment_invariant (s : Store) (hs : Reachable s) :
    (∀ pay ∈ s.payments, pay.Total = itemsSum (itemsOf s pay.ID)) ∧
    (∀ it ∈ s.paymentItems, ∃ pay ∈ s.payments, pay.ID = it.PaymentID) := by
  induction hs with
  | init => exact ⟨fun _ h => (by cases h), fun _ h => (by cases h)⟩
  | @step s0 pf r _ ih =>
    cases hr : r.isCreatePayment with
    | false =>
      obtain ⟨h1, h2⟩ := handle_payments_unchanged pf s0 r hr
      unfold itemsOf
      rw [h1, h2]
      exact ih
    | true =>
      cases r with
      | createPayment body now fault => exact payment_invariant_step s0 body now fault ih.1 ih.2
      | _ => cases hr

/-- C9.  In every store reachable from the empty database by any sequence of
the exposed handler calls, every stored payment's `Total` equals the sum, over
the item rows that reference it (in storage order, from `+0`), of
`price * float64(qty)`, and every item row references a stored payment; and no
handler other than `createPayment` creates or changes a payment or payment-item
row. -/
theorem payment_total_invariant (s : Store) (hs : Reachable s) :
    (∀ pay ∈ s.payments, pay.Total = itemsSum (itemsOf s pay.ID)) ∧
    (∀ it ∈ s.paymentItems, ∃ pay ∈ s.payments, pay.ID = it.PaymentID) ∧
    (∀ (ParseFloat : String → Option F64) (r : Request), r.isCreatePayment = false →
      (handle ParseFloat s r).1.payments = s.payments ∧
      (handle ParseFloat s r).1.paymentItems = s.paymentItems) :=
  ⟨(reachable_payment_invariant s hs).1, (reachable_payment_invariant s hs).2,
    fun pf r hr => handle_payments_unchanged pf s r hr⟩

/-- Witness for `payment_total_invariant`: the store after one accepted payment
of two items on the empty database. -/
theorem payment_total_invariant_witness :
    Reachable (handle digitsFloat Store.empty (Request.createPayment
        (Except.ok ⟨⟨"Ann", "ann@example.com"⟩,
          [⟨1, "pen", F64.ofNat 10, 2⟩, ⟨2, "ink", F64.ofNat 5, 1⟩]⟩) 7 TxFault.none)).1 ∧
    (∀ pay ∈ (handle digitsFloat Store.empty (Request.createPayment
        (Except.ok ⟨⟨"Ann", "ann@example.com"⟩,
          [⟨1, "pen", F64.ofNat 10, 2⟩, ⟨2, "ink", F64.ofNat 5, 1⟩]⟩) 7
          TxFault.none)).1.payments,
      pay.Total = itemsSum (itemsOf (handle digitsFloat Store.empty (Request.createPayment
        (Except.ok ⟨⟨"Ann", "ann@example.com"⟩,
          [⟨1, "pen", F64.ofNat 10, 2⟩, ⟨2, "ink", F64.ofNat 5, 1⟩]⟩) 7 TxFault.none)).1
          pay.ID)) :=
  ⟨Reachable.step _ _ Reachable.init,
    (payment_total_invariant _ (Reachable.step _ _ Reachable.init)).1⟩

/-! ## Primary keys are never 0 -/

theorem nextID_ne_zero {α : Type} [Row α] (tbl : List α) : nextID tbl ≠ 0 := by
  unfold nextID
  omega

theorem dbCreate_ids {α : Type} [Row α] (tbl tbl1 : List α) (v v1 : α) (now : Time)
    (fault : Option String) (h : dbCreate tbl v now fault = Except.ok (tbl1, v1))
    (hpos : ∀ x ∈ tbl, rowID x ≠ 0) : ∀ x ∈ tbl1, rowID x ≠ 0 := by
  unfold dbCreate at h
  cases fault with
  | some e => cases h
  | none =>
    simp only at h
    split at h
    · cases h
      intro x hx
      rcases (mem_insertRow _ _ _).mp hx with hx | hx
      · rw [hx, rowID_setModel]
        exact nextID_ne_zero tbl
      · exact hpos x hx
    · next hne =>
      split at h
      · cases h
      · cases h
        intro x hx
        rcases (mem_insertRow _ _ _).mp hx with hx | hx
        · rw [hx, rowID_setModel]
          exact hne
        · exact hpos x hx

theorem dbSave_ids {α : Type} [Row α] (tbl tbl1 : List α) (v v1 : α) (now : Time)
    (fault : Option String) (h : dbSave tbl v now fault = Except.ok (tbl1, v1))
    (hpos : ∀ x ∈ tbl, rowID x ≠ 0) : ∀ x ∈ tbl1, rowID x ≠ 0 := by
  unfold dbSave at h
  split at h
  · exact dbCreate_ids _ _ _ _ _ _ h hpos
  · next hv =>
    cases fault with
    | some e => cases h
    | none =>
      simp only at h
      split at h
      · cases h
        intro x hx
        obtain ⟨y, hy, rfl⟩ := List.mem_map.mp hx
        by_cases hr : rowID y = rowID v ∧ live y = true
        · rw [if_pos hr, rowID_setModel]
          exact hv
        · rw [if_neg hr]
          exact hpos y hy
      · split at h
        · cases h
          intro x hx
          obtain ⟨y, hy, rfl⟩ := List.mem_map.mp hx
          by_cases hr : rowID y = rowID v
          · rw [if_pos hr, rowID_setModel]
            simp only [Row.model_setModel]
            exact hv
          · rw [if_neg hr]
            exact hpos y hy
        · cases h
          intro x hx
          rcases (mem_insertRow _ _ _).mp hx with hx | hx
          · rw [hx, rowID_setModel]
            simp only [Row.model_setModel]
            exact hv
          · exact hpos x hx

theorem dbDelete_ids {α : Type} [Row α] (tbl tbl1 : List α) (v : α) (now : Time)
    (fault : Option String) (h : dbDelete tbl v now fault = Except.ok tbl1)
    (hpos : ∀ x ∈ tbl, rowID x ≠ 0) : ∀ x ∈ tbl1, rowID x ≠ 0 := by
  unfold dbDelete at h
  cases fault with
  | some e => cases h
  | none =>
    simp only at h
    split at h
    · cases h
    · cases h
      intro x hx
      obtain ⟨y, hy, rfl⟩ := List.mem_map.mp hx
      by_cases hr : rowID y = rowID v ∧ live y = true
      · rw [if_pos hr, rowID_setModel]
        exact hpos y hy
      · rw [if_neg hr]
        exact hpos y hy

/-- No handler writes a product row with key 0: in every reachable store the
keys of the product rows are not 0. -/
theorem reachable_product_ids (s : Store) (hs : Reachable s) :
    ∀ p ∈ s.products, p.ID ≠ 0 := by
  induction hs with
  | init => exact fun _ h => (by cases h)
  | @step s0 pf r _ ih =>
    cases r with
    | getProducts fault => exact ih
    | getProductByID id fault => exact ih
    | createProduct body now fault =>
      simp only [handle, createProduct]
      split
      · exact ih
      · split
        · exact ih
        · next h =>
          obtain ⟨_, ⟨v, h2⟩, _, _, _⟩ := dbCreateProduct_frame _ _ _ _ _ _ h
          exact dbCreate_ids _ _ _ _ _ _ h2 ih
    | updateProduct id body now f1 f2 =>
      simp only [handle, updateProduct]
      split
      · exact ih
      · split
        · exact ih
        · split
          · exact ih
          · next h =>
            obtain ⟨_, ⟨v, h2⟩, _, _, _⟩ := dbSaveProduct_frame _ _ _ _ _ _ h
            exact dbSave_ids _ _ _ _ _ _ h2 ih
    | deleteProduct id now f1 f2 =>
      simp only [handle, deleteProduct]
      split
      · exact ih
      · split
        · exact ih
        · next h => exact dbDelete_ids _ _ _ _ _ h ih
    | filterProducts a b fault => exact ih
    | getCarts fault => exact ih
    | createCart body now fault =>
      simp only [handle, createCart]
      split
      · exact ih
      · split <;> exact ih
    | getCategories fault => exact ih
    | getCategoryByID id fault => exact ih
    | createCategory body now fault =>
      simp only [handle, createCategory]
      split
      · exact ih
      · split <;> exact ih
    | createPayment body now fault =>
      rcases createPayment_store s0 body now fault with h | ⟨_, _, _, h, _, _⟩
      · simp only [handle, h]; exact ih
      · simp only [handle, h]; exact ih

/-! ## Partial update of a product -/

theorem dbCreateDoNothing_spec {α : Type} [Row α] (tbl : List α) (v : α) (now : Time) :
    keepsRows tbl (dbCreateDoNothing tbl v now).1 ∧
    (∃ c ∈ (dbCreateDoNothing tbl v now).1, rowID c = rowID (dbCreateDoNothing tbl v now).2) ∧
    rowID (dbCreateDoNothing tbl v now).2 = (if rowID v = 0 then nextID tbl else rowID v) ∧
    (∀ x ∈ (dbCreateDoNothing tbl v now).1,
      x ∈ tbl ∨ x = (dbCreateDoNothing tbl v now).2) := by
  unfold dbCreateDoNothing
  simp only
  by_cases h0 : (Row.model v).ID = 0
  · have h0r : rowID v = 0 := h0
    simp only [h0, h0r, if_true]
    exact ⟨keepsRows_insertRow _ _, ⟨_, (mem_insertRow _ _ _).mpr (Or.inl rfl), rfl⟩,
      rowID_setModel _ _, fun x hx => ((mem_insertRow _ _ _).mp hx).symm⟩
  · have h0r : ¬ rowID v = 0 := h0
    simp only [h0, h0r, if_false]
    by_cases hh : hasID tbl (Row.model v).ID = true
    · simp only [hh, if_true]
      refine ⟨keepsRows_refl _, ?_, rowID_setModel _ _, fun x hx => Or.inl hx⟩
      unfold hasID at hh
      obtain ⟨c, hc, hcid⟩ := List.any_eq_true.mp hh
      refine ⟨c, hc, ?_⟩
      rw [rowID_setModel]
      exact of_decide_eq_true hcid
    · simp only [hh, if_false]
      exact ⟨keepsRows_insertRow _ _, ⟨_, (mem_insertRow _ _ _).mpr (Or.inl rfl), rfl⟩,
        rowID_setModel _ _, fun x hx => ((mem_insertRow _ _ _).mp hx).symm⟩

theorem saveBelongsTo_zero (s : Store) (p : Product) (now : Time)
    (h : p.Category = CategoryRow.zero) : saveBelongsTo s p now = (s, p) := by
  unfold saveBelongsTo
  rw [if_pos h]

theorem saveBelongsTo_category (s : Store) (p : Product) (now : Time)
    (h : p.Category ≠ CategoryRow.zero) :
    (saveBelongsTo s p now).2.CategoryID =
      (if p.Category.ID = 0 then nextID s.categories else p.Category.ID) ∧
    ∃ c ∈ (saveBelongsTo s p now).1.categories, c.ID = (saveBelongsTo s p now).2.CategoryID := by
  unfold saveBelongsTo
  rw [if_neg h]
  obtain ⟨_, h2, h3, _⟩ := dbCreateDoNothing_spec s.categories p.Category now
  exact ⟨h3, h2⟩

theorem ProductBody.bind_bare (b : ProductBody) (p : ProductRow) :
    (b.bind p.bare).Category = b.boundCategory := by
  unfold ProductBody.bind ProductBody.boundCategory
  cases b.category <;> rfl

/-- C6 (amended).  `updateProduct` has partial-update semantics on `name` and
`price`, and on `category_id` unless the payload carries a `category` object.
For every existing non-deleted product `p` (the row `DB.First` loads for the
path id) and every payload that does not carry another `ID`, the call answers
200 with a product that has the id of `p` and is a row of the store after the
call, in which `name` and `price` have the payload's value when present and
the value they have in `p` when omitted.  When the payload's `category` is
absent or all-zero, the same holds of `category_id` and the categories are left
as they were; when it is a non-zero object, `category_id` is set to that
category's key, a row of `categories` after the call (inserted with the next
key when the object has none).  Unless the payload sets `DeletedAt`, `DB.First`
on the same id loads the returned product after the call.  In particular a
payload containing only `price` leaves `name` and `category_id` unchanged.
(Ids are assigned by `AUTOINCREMENT`, hence not 0; storage is taken not to
fail.) -/
theorem updateProduct_partial (s : Store) (idParam : String) (b : ProductBody) (now : Time)
    (p : ProductRow) (hfirst : dbFirst s.products (Atoi idParam) none = Except.ok p)
    (hpos : p.ID ≠ 0) (hkey : b.ID = none ∨ b.ID = some p.ID) :
    ∃ saved : Product,
      (updateProduct s idParam (Except.ok b) now none none).2 = ⟨200, Body.product saved⟩ ∧
      saved.toProductRow ∈ (updateProduct s idParam (Except.ok b) now none none).1.products ∧
      saved.ID = p.ID ∧
      saved.Name = b.name.getD p.Name ∧
      saved.Price = b.price.getD p.Price ∧
      (b.name = none → saved.Name = p.Name) ∧
      (b.price = none → saved.Price = p.Price) ∧
      (b.boundCategory = CategoryRow.zero →
        saved.CategoryID = b.category_id.getD p.CategoryID ∧
        (b.category_id = none → saved.CategoryID = p.CategoryID) ∧
        (updateProduct s idParam (Except.ok b) now none none).1.categories = s.categories) ∧
      (b.boundCategory ≠ CategoryRow.zero →
        saved.CategoryID =
          (if b.boundCategory.ID = 0 then nextID s.categories else b.boundCategory.ID) ∧
        ∃ c ∈ (updateProduct s idParam (Except.ok b) now none none).1.categories,
          c.ID = saved.CategoryID) ∧
      (b.DeletedAt = none ∨ b.DeletedAt = some none →
        dbFirst (updateProduct s idParam (Except.ok b) now none none).1.products
          (Atoi idParam) none = Except.ok saved.toProductRow) ∧
      (∀ x, b = ⟨ModelKeys.absent, none, some x, none, none⟩ →
        saved.Name = p.Name ∧ saved.Price = x ∧ saved.CategoryID = p.CategoryID) := by
  obtain ⟨hmem, hlive, hid⟩ := dbFirst_ok _ _ _ _ hfirst
  have hplive : p.DeletedAt = none := (ProductRow.live_iff p).mp hlive
  obtain ⟨hf1, _, _, _, _, hf6, hf7, hf8⟩ := saveBelongsTo_frame s (b.bind p.bare) now
  have hbcat := ProductBody.bind_bare b p
  have hbid : (b.bind p.bare).ID = p.ID := by
    show b.ID.getD p.ID = p.ID
    rcases hkey with h | h <;> rw [h] <;> rfl
  have hqid : rowID (saveBelongsTo s (b.bind p.bare) now).2.toProductRow = rowID p := by
    show (saveBelongsTo s (b.bind p.bare) now).2.toModel.ID = p.ID
    rw [hf6]
    exact hbid
  have hsave := dbSave_live (saveBelongsTo s (b.bind p.bare) now).1.products
    (saveBelongsTo s (b.bind p.bare) now).2.toProductRow p now (by rw [hf1]; exact hmem) hlive
    hqid.symm (by rw [hqid]; exact hpos)
  have hupd : updateProduct s idParam (Except.ok b) now none none =
      ({ (saveBelongsTo s (b.bind p.bare) now).1 with
          products := (saveBelongsTo s (b.bind p.bare) now).1.products.map (fun r =>
            if rowID r = rowID (saveBelongsTo s (b.bind p.bare) now).2.toProductRow ∧
                live r = true then
              Row.setModel
                { Row.model (saveBelongsTo s (b.bind p.bare) now).2.toProductRow with
                  UpdatedAt := now }
                (saveBelongsTo s (b.bind p.bare) now).2.toProductRow
            else r) },
        ⟨200, Body.product
          { toProductRow := Row.setModel
              { Row.model (saveBelongsTo s (b.bind p.bare) now).2.toProductRow with
                UpdatedAt := now }
              (saveBelongsTo s (b.bind p.bare) now).2.toProductRow,
            Category := (saveBelongsTo s (b.bind p.bare) now).2.Category }⟩) := by
    simp only [updateProduct, hfirst, dbSaveProduct, hsave, StatusOK]
  rw [hupd]
  refine ⟨_, rfl, ?_, ?_, ?_, ?_, ?_, ?_, ?_, ?_, ?_, ?_⟩
  · simp only [hf1]
    refine List.mem_map.mpr ⟨p, hmem, ?_⟩
    rw [if_pos ⟨hqid.symm, hlive⟩]
  · show (saveBelongsTo s (b.bind p.bare) now).2.toModel.ID = p.ID
    rw [hf6]; exact hbid
  · show (saveBelongsTo s (b.bind p.bare) now).2.Name = _
    rw [hf7]; rfl
  · show (saveBelongsTo s (b.bind p.bare) now).2.Price = _
    rw [hf8]; rfl
  · intro h
    show (saveBelongsTo s (b.bind p.bare) now).2.Name = _
    rw [hf7]
    show b.name.getD p.Name = p.Name
    rw [h]; rfl
  · intro h
    show (saveBelongsTo s (b.bind p.bare) now).2.Price = _
    rw [hf8]
    show b.price.getD p.Price = p.Price
    rw [h]; rfl
  · intro hz
    have hs0 := saveBelongsTo_zero s (b.bind p.bare) now (by rw [hbcat]; exact hz)
    refine ⟨?_, ?_, ?_⟩
    · show (saveBelongsTo s (b.bind p.bare) now).2.CategoryID = _
      rw [hs0]; rfl
    · intro h
      show (saveBelongsTo s (b.bind p.bare) now).2.CategoryID = _
      rw [hs0]
      show b.category_id.getD p.CategoryID = p.CategoryID
      rw [h]; rfl
    · show (saveBelongsTo s (b.bind p.bare) now).1.categories = _
      rw [hs0]
  · intro hnz
    obtain ⟨h1, h2⟩ := saveBelongsTo_category s (b.bind p.bare) now (by rw [hbcat]; exact hnz)
    rw [hbcat] at h1
    exact ⟨h1, h2⟩
  · intro hdel
    have hv1live : live (Row.setModel
        { Row.model (saveBelongsTo s (b.bind p.bare) now).2.toProductRow with UpdatedAt := now }
        (saveBelongsTo s (b.bind p.bare) now).2.toProductRow) = true := by
      rw [live_setModel]
      show (saveBelongsTo s (b.bind p.bare) now).2.toModel.DeletedAt.isNone = true
      rw [hf6]
      show (b.DeletedAt.getD p.DeletedAt).isNone = true
      rw [hplive]
      rcases hdel with h | h <;> rw [h] <;> rfl
    have hfind : s.products.find? (fun r => live r && decide ((rowID r : Int) = Atoi idParam))
        = some p := by
      unfold dbFirst at hfirst
      simp only at hfirst
      cases hf : s.products.find? (fun r => live r && decide ((rowID r : Int) = Atoi idParam)) with
      | none => rw [hf] at hfirst; cases hfirst
      | some q => rw [hf] at hfirst; cases hfirst; rfl
    unfold dbFirst
    simp only [hf1]
    rw [find_after_overwrite s.products _
      (rowID (saveBelongsTo s (b.bind p.bare) now).2.toProductRow) (Atoi idParam)
      (by rw [hqid]; exact hid) (by rw [rowID_setModel]; rfl) hv1live, hfind]
    simp only [Option.map_some', hqid, hlive, and_self, if_true]
  · intro x hb
    subst hb
    have hs0 := saveBelongsTo_zero s
      ((⟨ModelKeys.absent, none, some x, none, none⟩ : ProductBody).bind p.bare) now rfl
    refine ⟨?_, ?_, ?_⟩
    · show (saveBelongsTo s _ now).2.Name = _
      rw [hs0]; rfl
    · show (saveBelongsTo s _ now).2.Price = _
      rw [hs0]; rfl
    · show (saveBelongsTo s _ now).2.CategoryID = _
      rw [hs0]; rfl

/-- Witness for `updateProduct_partial`: on `exampleStore`, `PUT /products/1`
with the payload `{"price": 12}`. -/
theorem updateProduct_partial_witness :
    ∃ saved : Product,
      (updateProduct exampleStore "1"
        (Except.ok ⟨ModelKeys.absent, none, some (F64.ofNat 12), none, none⟩)
        9 none none).2 = ⟨200, Body.product saved⟩ ∧
      saved.ID = 1 ∧ saved.Name = "Go Guide" ∧ saved.Price = F64.ofNat 12 ∧
      saved.CategoryID = 2 := by
  obtain ⟨saved, h1, _, h3, _, _, _, _, _, _, _, h10⟩ :=
    updateProduct_partial exampleStore "1"
      ⟨ModelKeys.absent, none, some (F64.ofNat 12), none, none⟩ 9
      ⟨⟨1, 2, 2, none⟩, "Go Guide", F64.ofNat 30, 2⟩ rfl (by decide) (Or.inl rfl)
  obtain ⟨h4, h5, h6⟩ := h10 (F64.ofNat 12) rfl
  exact ⟨saved, h1, h3, h4, h5, h6⟩

/-- C6, as stated, fails.  On `exampleStore`, product 1 has `category_id` 2.
`PUT /products/1` with the payload `{"price": 12, "category": {"name": "X"}}`,
which omits `category_id`, answers 200 with `category_id` 4, the key of the
category row it inserted; and with the payload
`{"category_id": 3, "category": {"ID": 2}}` the persisted and returned
`category_id` is 2, not the payload's 3. -/
theorem updateProduct_partial_counterexample :
    dbFirst exampleStore.products (Atoi "1") none =
      Except.ok ⟨⟨1, 2, 2, none⟩, "Go Guide", F64.ofNat 30, 2⟩ ∧
    updateProduct exampleStore "1"
        (Except.ok ⟨ModelKeys.absent, none, some (F64.ofNat 12), none,
          some ⟨ModelKeys.absent, some "X"⟩⟩) 9 none none =
      ({ exampleStore with
          categories :=
            [⟨⟨2, 1, 1, none⟩, "Books"⟩, ⟨⟨3, 1, 1, none⟩, "Games"⟩, ⟨⟨4, 9, 9, none⟩, "X"⟩],
          products :=
            [⟨⟨1, 2, 9, none⟩, "Go Guide", F64.ofNat 12, 4⟩,
             ⟨⟨2, 3, 3, none⟩, "Leaflet", F64.ofNat 5, 2⟩,
             ⟨⟨3, 4, 4, none⟩, "Chess", F64.ofNat 40, 3⟩,
             ⟨⟨4, 5, 6, some 6⟩, "Atlas", F64.ofNat 50, 2⟩] },
        ⟨200, Body.product
          ⟨⟨⟨1, 2, 9, none⟩, "Go Guide", F64.ofNat 12, 4⟩, ⟨⟨4, 9, 9, none⟩, "X"⟩⟩⟩) ∧
    updateProduct exampleStore "1"
        (Except.ok ⟨ModelKeys.absent, none, none, some 3,
          some ⟨⟨some 2, none, none, none⟩, none⟩⟩) 9 none none =
      ({ exampleStore with
          products :=
            [⟨⟨1, 2, 9, none⟩, "Go Guide", F64.ofNat 30, 2⟩,
             ⟨⟨2, 3, 3, none⟩, "Leaflet", F64.ofNat 5, 2⟩,
             ⟨⟨3, 4, 4, none⟩, "Chess", F64.ofNat 40, 3⟩,
             ⟨⟨4, 5, 6, some 6⟩, "Atlas", F64.ofNat 50, 2⟩] },
        ⟨200, Body.product
          ⟨⟨⟨1, 2, 9, none⟩, "Go Guide", F64.ofNat 30, 2⟩, ⟨⟨2, 9, 9, none⟩, ""⟩⟩⟩) := by
  refine ⟨by rfl, by rfl, by rfl⟩

end Backend
